import Mathlib

/-
Verification of the timestepping engine `functions_timestepping.py` of the
Stokesian-dynamics simulator.

Shallow embedding conventions:
* numpy floating-point arithmetic is idealised as exact arithmetic, over ℝ for
  the code paths that use square roots and trigonometry (the rotation updater,
  vector norms) and over ℚ for the purely field-arithmetic paths (the periodic
  box wrap, the ETA estimator, the linear solves), so that those definitions
  stay executable;
* numpy arrays of 3-vectors become functions `ℕ → Vec3` or lists of vectors;
* `np.linalg.solve` / `np.linalg.inv` are given their exact linear-algebra
  semantics (solution of the system for a non-singular matrix, computed through
  the adjugate so that the definitions remain evaluable);
* the Python `print` calls are dropped except where a claim is about them, in
  which case the emitted messages are modelled as an explicitly returned list;
* the sentinel string `'pippa'` marking an unset input component is modelled by
  `Option` (`none` = unset), and a fallible branch returns `Except`.
-/

/-! ### Real 3-vectors (positions, displacements, angular velocities) -/

/-- A 3-component real vector, the embedding of a numpy `array([x, y, z])`. -/
@[ext]
structure Vec3 where
  x : ℝ
  y : ℝ
  z : ℝ

instance : Zero Vec3 := ⟨⟨0, 0, 0⟩⟩
instance : Add Vec3 := ⟨fun a b => ⟨a.x + b.x, a.y + b.y, a.z + b.z⟩⟩
instance : Sub Vec3 := ⟨fun a b => ⟨a.x - b.x, a.y - b.y, a.z - b.z⟩⟩
instance : Neg Vec3 := ⟨fun a => ⟨-a.x, -a.y, -a.z⟩⟩
instance : SMul ℝ Vec3 := ⟨fun c a => ⟨c * a.x, c * a.y, c * a.z⟩⟩

/-- `np.dot` on 3-vectors. -/
def vdot (a b : Vec3) : ℝ := a.x * b.x + a.y * b.y + a.z * b.z

/-- `np.cross` on 3-vectors. -/
def vcross (a b : Vec3) : Vec3 :=
  ⟨a.y * b.z - a.z * b.y, a.z * b.x - a.x * b.z, a.x * b.y - a.y * b.x⟩

/-- Sum of squares of the components (`x**2 + y**2 + z**2`). -/
def vnormSq (a : Vec3) : ℝ := a.x ^ 2 + a.y ^ 2 + a.z ^ 2

/-- `np.linalg.norm` on a 3-vector, i.e. `(x**2 + y**2 + z**2) ** 0.5`. -/
noncomputable def vnorm (a : Vec3) : ℝ := Real.sqrt (vnormSq a)

/-! ### Integrator (`euler_timestep`, line 21-23) -/

/-- `euler_timestep(x, u, timestep)`: returns `x + timestep * u` (line 23,
applied here to the scalar azimuth coordinate, exactly as the rotation updater
does at line 118). -/
def euler_timestep (x u timestep : ℝ) : ℝ := x + timestep * u

/-! ### Explosion check (`did_something_go_wrong_with_dumbells`, lines 31-61)

The loop over dumbbells sets `error = True` exactly when
`explosion_protection and np.linalg.norm(new_dumbbell_deltax[i]) > 5`
(line 53-60); everything else in the loop body only prints.  The error flag and
the `explosion_protection` switch are Python booleans feeding an undecidable
real comparison, so they are embedded as `Prop`. -/

/-- `did_something_go_wrong_with_dumbells(error, dumbbell_deltax,
new_dumbbell_deltax, explosion_protection)` (lines 31-61): folds over the new
dumbbell displacements, switching the error flag on when explosion protection
is active and a displacement norm exceeds 5.  The first `if` of the loop body
(lines 48-52, the over-90°-rotation check) only prints `Code point H#`
diagnostics and never writes to `error`; it is modelled separately by
`dumbbell_code_point_H_log` below.  `dumbbell_deltax` is threaded through
untouched because the source loop reads it only for that print. -/
def did_something_go_wrong_with_dumbells (error : Prop)
    (dumbbell_deltax new_dumbbell_deltax : List Vec3)
    (explosion_protection : Prop) : Prop :=
  match new_dumbbell_deltax with
  | [] => error
  | v :: rest =>
      did_something_go_wrong_with_dumbells
        (error ∨ (explosion_protection ∧ 5 < vnorm v))
        (dumbbell_deltax.drop 1) rest explosion_protection

/-! ### Size-ratio check (`do_we_have_all_size_ratios`, lines 144-170)

Element sizes are exact rationals here; `np.in1d` is exact membership. -/

/-- `do_we_have_all_size_ratios(error, element_sizes, lam_range, num_spheres)`
(lines 144-170): the matrix `lambda_matrix[i][j] = element_sizes[j] /
element_sizes[i]` must lie entirely inside `lam_range` together with its
reciprocals; if some entry is missing the function returns `True` (line 169),
otherwise it passes `error` through (line 170).  `num_spheres` is used by the
source only to format the error message. -/
def do_we_have_all_size_ratios (error : Bool)
    (element_sizes lam_range : List ℚ) (num_spheres : ℕ) : Bool :=
  let lam_range_including_reciprocals := lam_range ++ lam_range.map (fun lam => 1 / lam)
  if element_sizes.all (fun si =>
      element_sizes.all (fun sj => decide (sj / si ∈ lam_range_including_reciprocals)))
  then error
  else true

/-! ### Proximity diagnostic (`are_some_of_the_particles_too_close`,
lines 173-207)

The body computes a scaled separation-distance matrix and prints it when
`printout > 0`; the returned value is the `error` argument, unconditionally
(line 207). -/

/-- `are_some_of_the_particles_too_close(...)` (lines 173-207): every numeric
argument of the source is kept in the signature, but the function returns the
`error` flag unchanged — all intermediate computations feed only `print`. -/
def are_some_of_the_particles_too_close (error : Bool) (printout : ℕ)
    (s_dash_range : List ℚ)
    (sphere_positions dumbbell_positions dumbbell_deltax : List Vec3)
    (sphere_sizes dumbbell_sizes : List ℚ)
    (element_positions : List Vec3) : Bool :=
  error

/-! ### Rational 3-vectors and 3×3 matrices for the periodic box wrap -/

/-- A 3-component rational vector (exact embedding of box corners and
positions for the wrap, which uses only field operations and `np.mod`). -/
@[ext]
structure Vec3q where
  x : ℚ
  y : ℚ
  z : ℚ
deriving DecidableEq

instance : Zero Vec3q := ⟨⟨0, 0, 0⟩⟩
instance : Add Vec3q := ⟨fun a b => ⟨a.x + b.x, a.y + b.y, a.z + b.z⟩⟩
instance : Sub Vec3q := ⟨fun a b => ⟨a.x - b.x, a.y - b.y, a.z - b.z⟩⟩
instance : Neg Vec3q := ⟨fun a => ⟨-a.x, -a.y, -a.z⟩⟩

/-- A rational 3×3 matrix, entries `mRC` = row `R`, column `C`. -/
@[ext]
structure Mat3q where
  m00 : ℚ
  m01 : ℚ
  m02 : ℚ
  m10 : ℚ
  m11 : ℚ
  m12 : ℚ
  m20 : ℚ
  m21 : ℚ
  m22 : ℚ
deriving DecidableEq

/-- `np.dot(v, M)` for a row 3-vector `v` and 3×3 matrix `M` (the orientation
used by `wrap_around` at lines 603-605). -/
def vecMulMat (v : Vec3q) (M : Mat3q) : Vec3q :=
  ⟨v.x * M.m00 + v.y * M.m10 + v.z * M.m20,
   v.x * M.m01 + v.y * M.m11 + v.z * M.m21,
   v.x * M.m02 + v.y * M.m12 + v.z * M.m22⟩

/-- Determinant of a rational 3×3 matrix. -/
def mat3q_det (M : Mat3q) : ℚ :=
  M.m00 * (M.m11 * M.m22 - M.m12 * M.m21)
    - M.m01 * (M.m10 * M.m22 - M.m12 * M.m20)
    + M.m02 * (M.m10 * M.m21 - M.m11 * M.m20)

/-- Exact semantics of `np.linalg.inv` on a 3×3 matrix: the adjugate divided by
the determinant (the junk value for a singular matrix is irrelevant because the
source would raise `LinAlgError` there). -/
def mat3q_inv (M : Mat3q) : Mat3q :=
  let d := mat3q_det M
  ⟨(M.m11 * M.m22 - M.m12 * M.m21) / d,
   (M.m02 * M.m21 - M.m01 * M.m22) / d,
   (M.m01 * M.m12 - M.m02 * M.m11) / d,
   (M.m12 * M.m20 - M.m10 * M.m22) / d,
   (M.m00 * M.m22 - M.m02 * M.m20) / d,
   (M.m02 * M.m10 - M.m00 * M.m12) / d,
   (M.m10 * M.m21 - M.m11 * M.m20) / d,
   (M.m01 * M.m20 - M.m00 * M.m21) / d,
   (M.m00 * M.m11 - M.m01 * M.m10) / d⟩

/-- `np.diag(d)` (line 599: `basis_canonical = np.diag(box_dimensions)`). -/
def mat3q_diag (d : Vec3q) : Mat3q :=
  ⟨d.x, 0, 0, 0, d.y, 0, 0, 0, d.z⟩

/-- `np.mod(v, [1, 1, 1])` componentwise: the Python/numpy modulo
`a % 1 = a - floor(a)`, i.e. `Int.fract`. -/
def np_mod1 (v : Vec3q) : Vec3q :=
  ⟨Int.fract v.x, Int.fract v.y, Int.fract v.z⟩

/-- The constant offset `[0.5, 0.5, 0.5]` of `wrap_around`. -/
def vhalf : Vec3q := ⟨1/2, 1/2, 1/2⟩

/-- Lines 603-605 of `wrap_around`, with the (possibly sheared) box basis `B`
already built:
`np.dot(np.mod(np.dot(pos, inv(B)) + 0.5, [1,1,1]) - 0.5, B)`. -/
def wrap_around_basis (new_sphere_positions : Vec3q) (B : Mat3q) : Vec3q :=
  vecMulMat (np_mod1 (vecMulMat new_sphere_positions (mat3q_inv B) + vhalf) - vhalf) B

/-- `wrap_around` with the external basis builder abstracted: the source
computes `box_dimensions = box_top_right - box_bottom_left` (line 597) and then
calls the external collaborator
`shear_basis_vectors(np.diag(box_dimensions), box_dimensions, Ot_infinity,
Et_infinity)` (lines 599-601), whose result depends on the corners only through
`box_dimensions`; `sheared_basis` stands for that collaborator at the fixed
ambient tensors `Ot_infinity`, `Et_infinity` of the call. -/
def wrap_around_general (new_sphere_positions box_bottom_left box_top_right : Vec3q)
    (sheared_basis : Vec3q → Mat3q) : Vec3q :=
  wrap_around_basis new_sphere_positions (sheared_basis (box_top_right - box_bottom_left))

/-- `wrap_around(new_sphere_positions, box_bottom_left, box_top_right)` at the
default ambient tensors (lines 581-606).  Modelled from the spec:
`shear_basis_vectors` lives in the external `functions_shared` module; per the
specification's description of the box wrap ("transforming into the box's
(possibly non-orthogonal) basis, applying modular reduction per axis to the
range [-0.5,0.5) of box length"), for an axis-aligned non-sheared box the basis
is the canonical `np.diag(box_dimensions)` of line 599. -/
def wrap_around (new_sphere_positions box_bottom_left box_top_right : Vec3q) : Vec3q :=
  wrap_around_basis new_sphere_positions
    (mat3q_diag (box_top_right - box_bottom_left))

/-- One axis of the axis-aligned wrap: coordinate `v` with box length `L` is
sent to `(Int.fract (v / L + 1/2) - 1/2) * L`. -/
def modHalfLen (v L : ℚ) : ℚ := (Int.fract (v / L + 1/2) - 1/2) * L

/-! ### ETA estimator (`calculate_time_left`, lines 485-546)

Per-frame wall-clock durations are exact rationals; the list `times` of the
source (indexed by frame number) is a total function `ℕ → ℚ`.  The ambient
`numba.config.DISABLE_JIT` switch is an explicit `disable_jit` argument. -/

/-- `range(checkpoint_start_from_frame, frameno + 1)` (lines 501, 521). -/
def ctl_frames (checkpoint_start_from_frame frameno : ℕ) : List ℕ :=
  List.range' checkpoint_start_from_frame (frameno + 1 - checkpoint_start_from_frame)

/-- `longtimes` (lines 501-502): frames `i` in the elapsed range with
`i % invert_m_every == 0 or i == checkpoint_start_from_frame`. -/
def ctl_longtimes (times : ℕ → ℚ) (frameno invert_m_every checkpoint_start_from_frame : ℕ) :
    List ℚ :=
  ((ctl_frames checkpoint_start_from_frame frameno).filter
    (fun i => i % invert_m_every == 0 || i == checkpoint_start_from_frame)).map times

/-- `shorttimes` (lines 521-522): the complementary frames. -/
def ctl_shorttimes (times : ℕ → ℚ) (frameno invert_m_every checkpoint_start_from_frame : ℕ) :
    List ℚ :=
  ((ctl_frames checkpoint_start_from_frame frameno).filter
    (fun i => i % invert_m_every != 0 && i != checkpoint_start_from_frame)).map times

/-- `longtimeaverage` (lines 506-519): with numba JIT active the first long
frame is dropped from the average when at least two exist (compilation time);
with JIT disabled it is a plain average; an empty list averages to 0. -/
def ctl_longtimeaverage (disable_jit : Bool) (times : ℕ → ℚ)
    (frameno invert_m_every checkpoint_start_from_frame : ℕ) : ℚ :=
  let longtimes := ctl_longtimes times frameno invert_m_every checkpoint_start_from_frame
  if !disable_jit then
    if 2 ≤ longtimes.length then
      (longtimes.drop 1).sum / ((longtimes.drop 1).length : ℚ)
    else if longtimes.length = 1 then
      longtimes.getD 0 0
    else 0
  else
    if 0 < longtimes.length then longtimes.sum / (longtimes.length : ℚ) else 0

/-- `shorttimeaverage` (lines 523-526): average of the short-frame times, with
the long-time average silently substituted when no short frame has elapsed. -/
def ctl_shorttimeaverage (disable_jit : Bool) (times : ℕ → ℚ)
    (frameno invert_m_every checkpoint_start_from_frame : ℕ) : ℚ :=
  let shorttimes := ctl_shorttimes times frameno invert_m_every checkpoint_start_from_frame
  if shorttimes.length ≠ 0 then shorttimes.sum / (shorttimes.length : ℚ)
  else ctl_longtimeaverage disable_jit times frameno invert_m_every checkpoint_start_from_frame

/-- `range(frameno + 1, num_frames)` (lines 527-530). -/
def ctl_frames_left (frameno num_frames : ℕ) : List ℕ :=
  List.range' (frameno + 1) (num_frames - (frameno + 1))

/-- `numberoflongtimesleft` (lines 527-528). -/
def ctl_numberoflongtimesleft (frameno num_frames invert_m_every : ℕ) : ℕ :=
  ((ctl_frames_left frameno num_frames).filter (fun i => i % invert_m_every == 0)).length

/-- `numberofshorttimesleft` (lines 529-530). -/
def ctl_numberofshorttimesleft (frameno num_frames invert_m_every : ℕ) : ℕ :=
  ((ctl_frames_left frameno num_frames).filter (fun i => i % invert_m_every != 0)).length

/-- `numba_compilation_time_not_discounted_flag` (lines 506-511). -/
def ctl_numba_flag (disable_jit : Bool) (times : ℕ → ℚ)
    (frameno invert_m_every checkpoint_start_from_frame : ℕ) : String :=
  if !disable_jit &&
      (ctl_longtimes times frameno invert_m_every checkpoint_start_from_frame).length == 1
  then "<" else ""

/-- `no_short_times_yet_flag` (lines 538-541). -/
def ctl_no_short_flag (frameno num_frames invert_m_every checkpoint_start_from_frame : ℕ) :
    String :=
  if frameno - checkpoint_start_from_frame = 0 ∧
      0 < ctl_numberofshorttimesleft frameno num_frames invert_m_every
  then "<" else ""

/-- `calculate_time_left(times, frameno, num_frames, invert_m_every,
checkpoint_start_from_frame)` (lines 485-546): returns the projected remaining
time `(numberofshorttimesleft * shorttimeaverage + numberoflongtimesleft *
longtimeaverage) * 1.03` (lines 532-533) together with the advisory flag
string. -/
def calculate_time_left (disable_jit : Bool) (times : ℕ → ℚ)
    (frameno num_frames invert_m_every checkpoint_start_from_frame : ℕ) : ℚ × String :=
  (((ctl_numberofshorttimesleft frameno num_frames invert_m_every : ℚ) *
      ctl_shorttimeaverage disable_jit times frameno invert_m_every checkpoint_start_from_frame
    + (ctl_numberoflongtimesleft frameno num_frames invert_m_every : ℚ) *
      ctl_longtimeaverage disable_jit times frameno invert_m_every checkpoint_start_from_frame)
    * (103 / 100),
   ctl_numba_flag disable_jit times frameno invert_m_every checkpoint_start_from_frame
     ++ ctl_no_short_flag frameno num_frames invert_m_every checkpoint_start_from_frame)

/-! Claim-side vocabulary for the ETA estimator, written from the claim's
wording ("long frames are those with index divisible by `invert_m_every`, plus
the checkpoint start frame; short frames are the rest"). -/

/-- A frame index is long when divisible by `invert_m_every` or equal to the
checkpoint start frame. -/
def eta_isLongFrame (invert_m_every checkpoint_start_from_frame i : ℕ) : Bool :=
  decide (invert_m_every ∣ i) || decide (i = checkpoint_start_from_frame)

/-- Times of the elapsed long frames. -/
def eta_longTimes (times : ℕ → ℚ) (frameno invert_m_every checkpoint_start_from_frame : ℕ) :
    List ℚ :=
  ((ctl_frames checkpoint_start_from_frame frameno).filter
    (eta_isLongFrame invert_m_every checkpoint_start_from_frame)).map times

/-- Times of the elapsed short frames (the rest). -/
def eta_shortTimes (times : ℕ → ℚ) (frameno invert_m_every checkpoint_start_from_frame : ℕ) :
    List ℚ :=
  ((ctl_frames checkpoint_start_from_frame frameno).filter
    (fun i => !eta_isLongFrame invert_m_every checkpoint_start_from_frame i)).map times

/-- The long-time average of a list of long-frame times (dropping the first
JIT-inflated entry when numba is active and two or more entries exist). -/
def eta_longAvg (disable_jit : Bool) (longtimes : List ℚ) : ℚ :=
  if !disable_jit then
    if 2 ≤ longtimes.length then
      (longtimes.drop 1).sum / ((longtimes.drop 1).length : ℚ)
    else if longtimes.length = 1 then
      longtimes.getD 0 0
    else 0
  else
    if 0 < longtimes.length then longtimes.sum / (longtimes.length : ℚ) else 0

/-- The short-time average, with the long-time average substituted whenever the
list of short-frame times is empty. -/
def eta_shortAvg (disable_jit : Bool) (shorttimes longtimes : List ℚ) : ℚ :=
  if shorttimes = [] then eta_longAvg disable_jit longtimes
  else shorttimes.sum / (shorttimes.length : ℚ)

/-- Number of long frames still to run. -/
def eta_longLeft (frameno num_frames invert_m_every : ℕ) : ℕ :=
  ((ctl_frames_left frameno num_frames).filter
    (fun i => decide (invert_m_every ∣ i))).length

/-- Number of short frames still to run. -/
def eta_shortLeft (frameno num_frames invert_m_every : ℕ) : ℕ :=
  ((ctl_frames_left frameno num_frames).filter
    (fun i => !decide (invert_m_every ∣ i))).length

/-! ### The `fts` branch of `generate_output_FTSUOE` (lines 293-302)

The grand resistance matrix is produced by an external collaborator, so it
enters as an arbitrary square rational matrix.  The flattened
force/torque/stresslet input components are `Option ℚ` (the `'pippa'` sentinel
becomes `none`). -/

/-- Sequence a list of optional components: `some` of the list of values when
every component is set, `none` as soon as one is unset. -/
def sequenceOption : List (Option ℚ) → Option (List ℚ)
  | [] => some []
  | none :: _ => none
  | some q :: rest => (sequenceOption rest).map (fun l => q :: l)

/-- Modelled from the spec: `construct_force_vector_from_fts` lives in the
external `functions_simulation_tools` module; per the specification it
produces "the ordered force/velocity excitation vector matching the resistance
matrix's unknown ordering" by concatenating the prescribed F, T, S, Fb, DFb
components, and raises (caught at line 296-297) when any required component is
unset. -/
def construct_force_vector_from_fts (Fa_in Ta_in Sa_in Fb_in DFb_in : List (Option ℚ)) :
    Option (List ℚ) :=
  sequenceOption (Fa_in ++ Ta_in ++ Sa_in ++ Fb_in ++ DFb_in)

/-- `True` exactly when every component of the list is prescribed (not the
`'pippa'` sentinel). -/
def allSet (l : List (Option ℚ)) : Bool := l.all (fun a => a.isSome)

/-- Exact semantics of `np.linalg.solve(M, f)` (line 298) for a non-singular
matrix: the unique solution `M⁻¹ f`, computed through the adjugate. -/
def np_linalg_solve {n : ℕ} (M : Matrix (Fin n) (Fin n) ℚ) (f : Fin n → ℚ) :
    Fin n → ℚ :=
  M.det⁻¹ • (M.adjugate.mulVec f)

/-- A list of scalars read as a vector indexed by `Fin n` (out-of-range reads
default to 0; in the source the force vector length always matches the matrix
dimension). -/
def listToVec {n : ℕ} (l : List ℚ) : Fin n → ℚ := fun i => l.getD i 0

/-- The observable outcome of the `input_form == 'fts'` branch (lines
293-302): the solved velocity vector plus the pass-through outputs
`(Fa_out, Ta_out, Sa_out) = (Fa_in[:], Ta_in[:], Sa_in[:])` of line 300. -/
structure FTSOutput (n : ℕ) where
  velocity_vector : Fin n → ℚ
  Fa_out : List (Option ℚ)
  Ta_out : List (Option ℚ)
  Sa_out : List (Option ℚ)

/-- The `input_form == 'fts'` branch of `generate_output_FTSUOE` (lines
293-302): build the force vector from the prescribed inputs (`throw_error`
when some value of F, T or S is missing, line 296-297), solve
`grand_resistance_matrix · velocity_vector = force_vector` (line 298), and copy
the prescribed forces, torques and stresslets to the outputs (line 300).  The
external `deconstruct_velocity_vector_for_fts` of line 299 merely re-partitions
`velocity_vector` into the per-particle outputs, so the velocity vector itself
is returned. -/
def generate_output_FTSUOE_fts {n : ℕ} (grand_resistance_matrix : Matrix (Fin n) (Fin n) ℚ)
    (Fa_in Ta_in Sa_in Fb_in DFb_in : List (Option ℚ)) :
    Except String (FTSOutput n) :=
  match construct_force_vector_from_fts Fa_in Ta_in Sa_in Fb_in DFb_in with
  | none => Except.error
      ("FTS mode has been selected but not all values of F, T and S have been provided.")
  | some force_vector => Except.ok
      { velocity_vector := np_linalg_solve grand_resistance_matrix (listToVec force_vector)
        Fa_out := Fa_in
        Ta_out := Ta_in
        Sa_out := Sa_in }

/-! ### `force_on_wall_due_to_dumbbells` across the mode dispatch
(lines 245, 347-368, 414-415)

In Python the variable is initialised to the integer `0` (line 245) and is
reassigned — to a reshaped numpy array — only inside the `ufte` branch when
`extract_force_on_wall_due_to_dumbbells` is set (lines 361-368).  In `ufteu`
mode an extraction request only prints a warning (lines 414-415). -/

/-- The value held by `force_on_wall_due_to_dumbbells` when
`generate_output_FTSUOE` returns: either the untouched scalar initialisation or
the per-wall-sphere array computed in the `ufte` extraction branch. -/
inductive WallForceValue where
  | scalar (v : ℚ)
  | array (rows : List (List ℚ))
deriving DecidableEq

/-- The returned `force_on_wall_due_to_dumbbells` as a function of the mode
and the extraction switch; `ufte_extraction` stands for the array computed at
lines 365-368 (a product of a mobility sub-block with the dumbbell forces,
whose value is irrelevant here).  Every branch other than `ufte`-with-
extraction leaves the line-245 initialisation `0` in place. -/
def force_on_wall_due_to_dumbbells_out (input_form : String)
    (extract_force_on_wall_due_to_dumbbells : Bool)
    (ufte_extraction : List (List ℚ)) : WallForceValue :=
  if input_form == "ufte" && extract_force_on_wall_due_to_dumbbells then
    WallForceValue.array ufte_extraction
  else
    WallForceValue.scalar 0

/-- The warnings printed by the mode dispatch about wall-force extraction: in
`ufteu` mode an extraction request emits exactly the line-415 warning and
nothing else happens. -/
def generate_output_FTSUOE_warnings (input_form : String)
    (extract_force_on_wall_due_to_dumbbells : Bool) : List String :=
  if input_form == "ufteu" && extract_force_on_wall_due_to_dumbbells then
    [("WARNING: Cannot extract force on wall due to dumbbells in UFTEU mode. Use UFTE mode instead.")]
  else []

/-! ### Rotation updater (`euler_timestep_rotation`, lines 64-127)

From here on the embedding uses classical real analysis (`Real.sqrt`,
`Real.arccos`, `np.arctan2`), so definitions are noncomputable and Python
boolean tests on reals are classical propositions. -/

open Classical

/-- A real 3×3 matrix stored by columns: `rot_matrix` at lines 94-97 is built
as `np.array([row1, row2, row3]).transpose()`, i.e. the three listed vectors
are its columns. -/
structure Mat3 where
  c1 : Vec3
  c2 : Vec3
  c3 : Vec3

/-- `np.dot(M, v)` for a column-matrix `M`. -/
def mat3_mulVec (M : Mat3) (v : Vec3) : Vec3 :=
  v.x • M.c1 + v.y • M.c2 + v.z • M.c3

/-- Determinant of a column 3×3 matrix. -/
def det3 (M : Mat3) : ℝ := vdot M.c1 (vcross M.c2 M.c3)

/-- Exact semantics of `np.dot(np.linalg.inv(M), v)` (line 108): the adjugate
rows `c2×c3, c3×c1, c1×c2` divided by the determinant. -/
noncomputable def mat3_invMulVec (M : Mat3) (v : Vec3) : Vec3 :=
  (det3 M)⁻¹ • ⟨vdot (vcross M.c2 M.c3) v,
                vdot (vcross M.c3 M.c1) v,
                vdot (vcross M.c1 M.c2) v⟩

/-- `np.identity(3)` (line 90). -/
def np_identity3 : Mat3 := ⟨⟨1, 0, 0⟩, ⟨0, 1, 0⟩, ⟨0, 0, 1⟩⟩

/-- `np.isclose(a, b)` at the default tolerances `rtol=1e-05`, `atol=1e-08`:
`|a - b| <= atol + rtol * |b|`. -/
def np_isclose (a b : ℝ) : Prop := |a - b| ≤ 1 / 10 ^ 8 + (1 / 10 ^ 5) * |b|

/-- `np.allclose` on 3-vectors: componentwise `np.isclose`. -/
def np_allclose3 (a b : Vec3) : Prop :=
  np_isclose a.x b.x ∧ np_isclose a.y b.y ∧ np_isclose a.z b.z

/-- `np.arctan2(y, x)`: the argument of the complex number `x + i y`
(range `(-π, π]`, `arctan2(0, 0) = 0`). -/
noncomputable def np_arctan2 (y x : ℝ) : ℝ := Complex.arg ⟨x, y⟩

/-- The frame matrix of lines 89-97: identity when the angular velocity is
exactly zero; otherwise the columns `ω×p/O`, `ω×(ω×p)/O²`, `ω/O` where the
helper axis `p` (`perp1`, line 93) is `[0,0,1]` when
`np.allclose(abs(ω/O), [1,0,0])` and `[1,0,0]` otherwise. -/
noncomputable def rot_matrix_raw (ω perp1 : Vec3) : Mat3 :=
  ⟨(vnorm ω)⁻¹ • vcross ω perp1,
   ((vnorm ω) ^ 2)⁻¹ • vcross ω (vcross ω perp1),
   (vnorm ω)⁻¹ • ω⟩

/-- Lines 89-97 of `euler_timestep_rotation`: the per-sphere frame matrix. -/
noncomputable def rot_matrix (Oa_i : Vec3) : Mat3 :=
  if Oa_i = 0 then np_identity3
  else
    let O := vnorm Oa_i
    let Otest : Vec3 := ⟨|Oa_i.x / O|, |Oa_i.y / O|, |Oa_i.z / O|⟩
    let perp1 : Vec3 := if np_allclose3 Otest ⟨1, 0, 0⟩ then ⟨0, 0, 1⟩ else ⟨1, 0, 0⟩
    rot_matrix_raw Oa_i perp1

/-- Lines 109-123 of `euler_timestep_rotation`: express the marker offset `v`
(already pulled into the rotating frame) in spherical coordinates
`r0 = |v|`, `t0 = arccos(z0/r0)`, `p0 = arctan2(y0, x0)` (0 at the pole),
advance the azimuth by an Euler step with rate `O`, and convert back. -/
noncomputable def sphericalStep (O timestep : ℝ) (v : Vec3) : Vec3 :=
  let x0 := v.x
  let y0 := v.y
  let z0 := v.z
  let r0 := Real.sqrt (x0 ^ 2 + y0 ^ 2 + z0 ^ 2)
  let t0 := Real.arccos (z0 / r0)
  let p0 := if x0 = 0 ∧ y0 = 0 then 0 else np_arctan2 y0 x0
  let r := r0
  let t := t0
  let p := euler_timestep p0 O timestep
  ⟨r * Real.sin t * Real.cos p, r * Real.sin t * Real.sin p, r * Real.cos t⟩

/-- `euler_timestep_rotation(sphere_positions, sphere_rotations,
new_sphere_positions, new_sphere_rotations, Oa_out, timestep)` (lines 64-127).
The Python loop writes each `new_sphere_rotations[i, j]` independently from
`sphere_positions[i]`, `sphere_rotations[i, j]`, `new_sphere_positions[i]` and
`Oa_out[i]`, so the returned array is this elementwise function:
`rb = R + rot_matrix · sphericalStep(O, dt, rot_matrix⁻¹ · (rb0 - R0))`. -/
noncomputable def euler_timestep_rotation (sphere_positions : ℕ → Vec3)
    (sphere_rotations : ℕ → Fin 2 → Vec3) (new_sphere_positions : ℕ → Vec3)
    (Oa_out : ℕ → Vec3) (timestep : ℝ) : ℕ → Fin 2 → Vec3 :=
  fun i j =>
    let R0 := sphere_positions i
    let O := vnorm (Oa_out i)
    let M := rot_matrix (Oa_out i)
    let rb0 := sphere_rotations i j
    let rbdashdash0_xyz := mat3_invMulVec M (rb0 - R0)
    let rbdashdash_xyz := sphericalStep O timestep rbdashdash0_xyz
    new_sphere_positions i + mat3_mulVec M rbdashdash_xyz

/-- `np.round(x, 4)` with numpy's round-half-to-even tie rule, as used at
line 48. -/
noncomputable def np_round4 (x : ℝ) : ℝ :=
  (if Int.fract (x * 10000) = 1 / 2 then
     (if Even ⌊x * 10000⌋ then (⌊x * 10000⌋ : ℝ) else (⌊x * 10000⌋ : ℝ) + 1)
   else ((round (x * 10000) : ℤ) : ℝ)) / 10000

/-- The indices printed by the informational `Code point H#` branch of
`did_something_go_wrong_with_dumbells` (lines 48-52): dumbbells whose
displacement rotated by more than 90° in one step.  This list feeds `print`
only; the returned error flag never reads it. -/
noncomputable def dumbbell_code_point_H_log (dumbbell_deltax new_dumbbell_deltax : List Vec3) :
    List ℕ :=
  (List.range new_dumbbell_deltax.length).filter (fun i =>
    decide (Real.pi / 2 <
      Real.arccos (np_round4 (vdot (dumbbell_deltax.getD i 0) (new_dumbbell_deltax.getD i 0) /
        (vnorm (dumbbell_deltax.getD i 0) * vnorm (new_dumbbell_deltax.getD i 0))))))

/-- Rotation about the z-axis by angle `φ` (proof-side abbreviation: the
spherical-coordinate step of lines 109-123 acts as this map). -/
noncomputable def rotZ (φ : ℝ) (v : Vec3) : Vec3 :=
  ⟨v.x * Real.cos φ - v.y * Real.sin φ,
   v.x * Real.sin φ + v.y * Real.cos φ,
   v.z⟩

/-! ## Lemmas -/

/-! ### Componentwise arithmetic on `Vec3` and `Vec3q` -/

@[simp] theorem Vec3.add_x (a b : Vec3) : (a + b).x = a.x + b.x := rfl
@[simp] theorem Vec3.add_y (a b : Vec3) : (a + b).y = a.y + b.y := rfl
@[simp] theorem Vec3.add_z (a b : Vec3) : (a + b).z = a.z + b.z := rfl
@[simp] theorem Vec3.sub_x (a b : Vec3) : (a - b).x = a.x - b.x := rfl
@[simp] theorem Vec3.sub_y (a b : Vec3) : (a - b).y = a.y - b.y := rfl
@[simp] theorem Vec3.sub_z (a b : Vec3) : (a - b).z = a.z - b.z := rfl
@[simp] theorem Vec3.neg_x (a : Vec3) : (-a).x = -a.x := rfl
@[simp] theorem Vec3.neg_y (a : Vec3) : (-a).y = -a.y := rfl
@[simp] theorem Vec3.neg_z (a : Vec3) : (-a).z = -a.z := rfl
@[simp] theorem Vec3.smul_x (c : ℝ) (a : Vec3) : (c • a).x = c * a.x := rfl
@[simp] theorem Vec3.smul_y (c : ℝ) (a : Vec3) : (c • a).y = c * a.y := rfl
@[simp] theorem Vec3.smul_z (c : ℝ) (a : Vec3) : (c • a).z = c * a.z := rfl
@[simp] theorem Vec3.zero_x : (0 : Vec3).x = 0 := rfl
@[simp] theorem Vec3.zero_y : (0 : Vec3).y = 0 := rfl
@[simp] theorem Vec3.zero_z : (0 : Vec3).z = 0 := rfl

@[simp] theorem Vec3q.qadd_x (a b : Vec3q) : (a + b).x = a.x + b.x := rfl
@[simp] theorem Vec3q.qadd_y (a b : Vec3q) : (a + b).y = a.y + b.y := rfl
@[simp] theorem Vec3q.qadd_z (a b : Vec3q) : (a + b).z = a.z + b.z := rfl
@[simp] theorem Vec3q.qsub_x (a b : Vec3q) : (a - b).x = a.x - b.x := rfl
@[simp] theorem Vec3q.qsub_y (a b : Vec3q) : (a - b).y = a.y - b.y := rfl
@[simp] theorem Vec3q.qsub_z (a b : Vec3q) : (a - b).z = a.z - b.z := rfl
@[simp] theorem Vec3q.qneg_x (a : Vec3q) : (-a).x = -a.x := rfl
@[simp] theorem Vec3q.qneg_y (a : Vec3q) : (-a).y = -a.y := rfl
@[simp] theorem Vec3q.qneg_z (a : Vec3q) : (-a).z = -a.z := rfl

/-! ### Norms -/

theorem vnormSq_nonneg (v : Vec3) : 0 ≤ vnormSq v := by
  unfold vnormSq; positivity

theorem vnormSq_pos_of_ne (v : Vec3) (h : v ≠ 0) : 0 < vnormSq v := by
  rcases lt_or_eq_of_le (vnormSq_nonneg v) with hlt | heq
  · exact hlt
  · exfalso
    apply h
    have hs : v.x ^ 2 + v.y ^ 2 + v.z ^ 2 = 0 := heq.symm
    have hx : v.x ^ 2 = 0 := by nlinarith [sq_nonneg v.x, sq_nonneg v.y, sq_nonneg v.z]
    have hy : v.y ^ 2 = 0 := by nlinarith [sq_nonneg v.x, sq_nonneg v.y, sq_nonneg v.z]
    have hz : v.z ^ 2 = 0 := by nlinarith [sq_nonneg v.x, sq_nonneg v.y, sq_nonneg v.z]
    exact Vec3.ext (sq_eq_zero_iff.mp hx) (sq_eq_zero_iff.mp hy) (sq_eq_zero_iff.mp hz)

theorem vnorm_nonneg (v : Vec3) : 0 ≤ vnorm v := Real.sqrt_nonneg _

theorem vnorm_pos_of_ne (v : Vec3) (h : v ≠ 0) : 0 < vnorm v :=
  Real.sqrt_pos.mpr (vnormSq_pos_of_ne v h)

theorem vnorm_sq (v : Vec3) : (vnorm v) ^ 2 = vnormSq v :=
  Real.sq_sqrt (vnormSq_nonneg v)

@[simp] theorem vnorm_zero : vnorm 0 = 0 := by
  unfold vnorm vnormSq
  simp

theorem vnorm_eq_sqrt_normSq (v : Vec3) : vnorm v = Real.sqrt (vnormSq v) := rfl

/-! ### The explosion check -/

/-- Unfolding of the dumbbell explosion-check loop: the returned flag is the
incoming flag or the existence of an over-threshold new displacement. -/
theorem did_something_iff (error : Prop) (olds news : List Vec3) (ep : Prop) :
    did_something_go_wrong_with_dumbells error olds news ep ↔
      error ∨ (ep ∧ ∃ v ∈ news, 5 < vnorm v) := by
  induction news generalizing error olds with
  | nil => simp [did_something_go_wrong_with_dumbells]
  | cons v rest ih =>
      rw [did_something_go_wrong_with_dumbells, ih]
      simp only [List.exists_mem_cons_iff]
      tauto

/-! ### The periodic box wrap -/

/-- `(v ⬝ M) ⬝ M⁻¹ = v` for a non-singular 3×3 rational matrix. -/
theorem vecMulMat_inv_cancel (M : Mat3q) (h : mat3q_det M ≠ 0) (v : Vec3q) :
    vecMulMat (vecMulMat v M) (mat3q_inv M) = v := by
  have hd : mat3q_det M ≠ 0 := h
  unfold mat3q_det at hd
  ext <;> simp only [vecMulMat, mat3q_inv, mat3q_det] <;> field_simp <;> ring

/-- Shifting by `1/2`, taking the fractional part and shifting back is
idempotent on each coordinate. -/
theorem fract_shift_idem (a : ℚ) :
    Int.fract ((Int.fract a - 1/2) + 1/2) - 1/2 = Int.fract a - 1/2 := by
  have heq : (Int.fract a - 1/2) + 1/2 = Int.fract a := by ring
  rw [heq, Int.fract_fract]

/-- The box wrap over any non-singular basis (in particular any sheared box)
is idempotent. -/
theorem wrap_around_basis_idem (B : Mat3q) (h : mat3q_det B ≠ 0) (p : Vec3q) :
    wrap_around_basis (wrap_around_basis p B) B = wrap_around_basis p B := by
  unfold wrap_around_basis
  rw [vecMulMat_inv_cancel B h]
  congr 1
  ext <;> simp only [np_mod1, vhalf, Vec3q.qadd_x, Vec3q.qadd_y, Vec3q.qadd_z,
    Vec3q.qsub_x, Vec3q.qsub_y, Vec3q.qsub_z] <;> exact fract_shift_idem _

/-- Inverse of a non-singular diagonal matrix. -/
theorem mat3q_inv_diag (d : Vec3q) (hx : d.x ≠ 0) (hy : d.y ≠ 0) (hz : d.z ≠ 0) :
    mat3q_inv (mat3q_diag d) = mat3q_diag ⟨1 / d.x, 1 / d.y, 1 / d.z⟩ := by
  unfold mat3q_inv mat3q_diag mat3q_det
  ext <;> simp <;> field_simp <;> ring

/-- Row-vector multiplication by a diagonal matrix acts componentwise. -/
theorem vecMulMat_diag (v d : Vec3q) :
    vecMulMat v (mat3q_diag d) = ⟨v.x * d.x, v.y * d.y, v.z * d.z⟩ := by
  unfold vecMulMat mat3q_diag
  ext <;> simp

/-- Determinant of a diagonal matrix. -/
theorem mat3q_det_diag (d : Vec3q) : mat3q_det (mat3q_diag d) = d.x * d.y * d.z := by
  unfold mat3q_det mat3q_diag
  ring

/-- For an axis-aligned box with nonzero dimensions the wrap acts on each axis
as `modHalfLen` with the corresponding box length. -/
theorem wrap_around_diag (p bl tr : Vec3q) (hx : tr.x - bl.x ≠ 0)
    (hy : tr.y - bl.y ≠ 0) (hz : tr.z - bl.z ≠ 0) :
    wrap_around p bl tr =
      ⟨modHalfLen p.x (tr.x - bl.x), modHalfLen p.y (tr.y - bl.y),
       modHalfLen p.z (tr.z - bl.z)⟩ := by
  unfold wrap_around wrap_around_basis
  rw [mat3q_inv_diag _ hx hy hz, vecMulMat_diag, vecMulMat_diag]
  ext <;>
    simp only [np_mod1, vhalf, modHalfLen, Vec3q.qadd_x, Vec3q.qadd_y, Vec3q.qadd_z,
      Vec3q.qsub_x, Vec3q.qsub_y, Vec3q.qsub_z] <;>
    rw [mul_one_div]

/-- `modHalfLen` is reduction modulo the box length. -/
theorem modHalfLen_sub_int_mul (v L : ℚ) (h : L ≠ 0) :
    ∃ k : ℤ, modHalfLen v L = v - k * L := by
  refine ⟨⌊v / L + 1/2⌋, ?_⟩
  unfold modHalfLen Int.fract
  field_simp
  ring

/-- `modHalfLen` lands in the origin-centred cell `[-L/2, L/2)`. -/
theorem modHalfLen_mem_cell (v L : ℚ) (hL : 0 < L) :
    -(L / 2) ≤ modHalfLen v L ∧ modHalfLen v L < L / 2 := by
  unfold modHalfLen
  constructor
  · nlinarith [Int.fract_nonneg (v / L + 1/2)]
  · nlinarith [Int.fract_lt_one (v / L + 1/2)]

/-- On an origin-centred axis, a coordinate at `L/2 + ε` wraps to
`-L/2 + ε` (for `0 ≤ ε < L`). -/
theorem modHalfLen_centred (L ε : ℚ) (hL : 0 < L) (hε0 : 0 ≤ ε) (hεL : ε < L) :
    modHalfLen (L / 2 + ε) L = -(L / 2) + ε := by
  unfold modHalfLen
  have harg : (L / 2 + ε) / L + 1/2 = ε / L + 1 := by field_simp; ring
  have hfrac : Int.fract (ε / L + 1) = ε / L := by
    rw [Int.fract_add_one]
    exact Int.fract_eq_self.mpr ⟨div_nonneg hε0 hL.le, (div_lt_one hL).mpr hεL⟩
  rw [harg, hfrac]
  field_simp
  ring

/-! ### The ETA estimator -/

/-- The source's boolean long-frame test agrees with the claim's
divisibility-or-checkpoint test. -/
theorem long_filter_eq (m cp i : ℕ) :
    (i % m == 0 || i == cp) = eta_isLongFrame m cp i := by
  unfold eta_isLongFrame
  by_cases h1 : i % m = 0 <;> by_cases h2 : i = cp <;>
    simp [h1, h2, Nat.dvd_iff_mod_eq_zero]

/-- Complementary fact for the short-frame test. -/
theorem short_filter_eq (m cp i : ℕ) :
    (i % m != 0 && i != cp) = !eta_isLongFrame m cp i := by
  unfold eta_isLongFrame
  by_cases h1 : i % m = 0 <;> by_cases h2 : i = cp <;>
    simp [h1, h2, Nat.dvd_iff_mod_eq_zero]

theorem ctl_longtimes_eq (times : ℕ → ℚ) (f m cp : ℕ) :
    ctl_longtimes times f m cp = eta_longTimes times f m cp := by
  unfold ctl_longtimes eta_longTimes
  congr 1
  exact List.filter_congr (fun i _ => long_filter_eq m cp i)

theorem ctl_shorttimes_eq (times : ℕ → ℚ) (f m cp : ℕ) :
    ctl_shorttimes times f m cp = eta_shortTimes times f m cp := by
  unfold ctl_shorttimes eta_shortTimes
  congr 1
  exact List.filter_congr (fun i _ => short_filter_eq m cp i)

theorem ctl_longleft_eq (f nf m : ℕ) :
    ctl_numberoflongtimesleft f nf m = eta_longLeft f nf m := by
  unfold ctl_numberoflongtimesleft eta_longLeft
  congr 1
  refine List.filter_congr (fun i _ => ?_)
  by_cases h1 : i % m = 0 <;> simp [h1, Nat.dvd_iff_mod_eq_zero]

theorem ctl_shortleft_eq (f nf m : ℕ) :
    ctl_numberofshorttimesleft f nf m = eta_shortLeft f nf m := by
  unfold ctl_numberofshorttimesleft eta_shortLeft
  congr 1
  refine List.filter_congr (fun i _ => ?_)
  by_cases h1 : i % m = 0 <;> simp [h1, Nat.dvd_iff_mod_eq_zero]

theorem ctl_longtimeaverage_eq (d : Bool) (times : ℕ → ℚ) (f m cp : ℕ) :
    ctl_longtimeaverage d times f m cp = eta_longAvg d (eta_longTimes times f m cp) := by
  unfold ctl_longtimeaverage eta_longAvg
  rw [ctl_longtimes_eq times f m cp]

theorem ctl_shorttimeaverage_eq (d : Bool) (times : ℕ → ℚ) (f m cp : ℕ) :
    ctl_shorttimeaverage d times f m cp =
      eta_shortAvg d (eta_shortTimes times f m cp) (eta_longTimes times f m cp) := by
  unfold ctl_shorttimeaverage eta_shortAvg
  rw [ctl_shorttimes_eq times f m cp]
  by_cases hs : eta_shortTimes times f m cp = []
  · simp [hs, ctl_longtimeaverage_eq d times f m cp]
  · have hlen : (eta_shortTimes times f m cp).length ≠ 0 :=
      fun h0 => hs (List.length_eq_zero.mp h0)
    simp [hs, hlen]

/-! ### The `fts` solve -/

/-- A fully-prescribed component list sequences to its list of values. -/
theorem sequenceOption_of_allSet (l : List (Option ℚ)) (h : allSet l = true) :
    sequenceOption l = some (l.filterMap id) := by
  induction l with
  | nil => rfl
  | cons a rest ih =>
      cases a with
      | none => simp [allSet] at h
      | some q =>
          have hrest : allSet rest = true := by
            simpa [allSet] using h
          simp [sequenceOption, ih hrest, List.filterMap_cons]

/-- Exactness of the modelled `np.linalg.solve`: the returned vector solves
the system whenever the matrix is non-singular. -/
theorem np_linalg_solve_solves {n : ℕ} (M : Matrix (Fin n) (Fin n) ℚ)
    (f : Fin n → ℚ) (h : M.det ≠ 0) :
    M.mulVec (np_linalg_solve M f) = f := by
  unfold np_linalg_solve
  rw [Matrix.mulVec_smul, Matrix.mulVec_mulVec, Matrix.mul_adjugate,
    Matrix.smul_mulVec_assoc, Matrix.one_mulVec, smul_smul,
    inv_mul_cancel₀ h, one_smul]

/-! ## Claim theorems -/

/-- C9: The output of `wrap_around` depends on the box corners only through
`box_top_right - box_bottom_left`: translating both corners by any vector `t`
leaves the wrapped positions unchanged (for the general, possibly sheared,
basis and in particular for the axis-aligned default), so the wrap cell is
centred on the origin regardless of where the corners place the box. -/
theorem wrap_around_translation_invariant :
    (∀ (p bl tr t : Vec3q) (sheared_basis : Vec3q → Mat3q),
      wrap_around_general p (bl + t) (tr + t) sheared_basis =
        wrap_around_general p bl tr sheared_basis)
    ∧ (∀ p bl tr t : Vec3q,
      wrap_around p (bl + t) (tr + t) = wrap_around p bl tr) := by
  constructor
  · intro p bl tr t sheared_basis
    unfold wrap_around_general
    congr 2
    ext <;> simp
  · intro p bl tr t
    unfold wrap_around
    congr 2
    ext <;> simp

/-- C3 counterexample: for the axis-aligned box with corners `(5,5,5)` and
`(7,7,7)`, the position `7.5` along the x-axis (that is, `box_top_right + 1/2`)
wraps to `-0.5`, not to `box_bottom_left + 1/2 = 5.5`: the wrap is a modular
reduction into the origin-centred cell, not into the box itself. -/
theorem wrap_around_counterexample :
    (wrap_around ⟨15/2, 6, 6⟩ ⟨5, 5, 5⟩ ⟨7, 7, 7⟩).x = -(1/2) ∧
    (wrap_around ⟨15/2, 6, 6⟩ ⟨5, 5, 5⟩ ⟨7, 7, 7⟩).x ≠ 5 + 1/2 := by
  have h := wrap_around_diag ⟨15/2, 6, 6⟩ ⟨5, 5, 5⟩ ⟨7, 7, 7⟩
    (by norm_num) (by norm_num) (by norm_num)
  have hfract : Int.fract ((15 : ℚ)/2 / ((7 : ℚ) - 5) + 1/2) = 1/4 := by
    rw [show ((15 : ℚ)/2 / ((7 : ℚ) - 5) + 1/2) = 1/4 + (4 : ℤ) by push_cast; norm_num,
      Int.fract_add_int]
    exact Int.fract_eq_self.mpr (by norm_num)
  have hx : (wrap_around ⟨15/2, 6, 6⟩ ⟨5, 5, 5⟩ ⟨7, 7, 7⟩).x = -(1/2) := by
    rw [h]
    show modHalfLen (15/2) ((7 : ℚ) - 5) = -(1/2)
    unfold modHalfLen
    rw [hfract]
    norm_num
  exact ⟨hx, by rw [hx]; norm_num⟩

/-- C3 (amended): `wrap_around` is idempotent for any axis-aligned box with
nonzero dimensions, and along each axis it is a modular reduction by the box
length into the origin-centred cell `[-L/2, L/2)`; consequently a position at
`box_top_right + ε` along an axis wraps to `box_bottom_left + ε` along that
axis exactly for boxes centred on the origin (`bl = -tr`), stated here for the
x-axis (the other axes are symmetric). -/
theorem wrap_around_idempotent_and_centred :
    (∀ (p bl tr : Vec3q), tr.x - bl.x ≠ 0 → tr.y - bl.y ≠ 0 → tr.z - bl.z ≠ 0 →
      wrap_around (wrap_around p bl tr) bl tr = wrap_around p bl tr)
    ∧ (∀ (p bl tr : Vec3q), 0 < tr.x - bl.x → tr.y - bl.y ≠ 0 → tr.z - bl.z ≠ 0 →
        ∃ k : ℤ, (wrap_around p bl tr).x = p.x - k * (tr.x - bl.x) ∧
          -((tr.x - bl.x) / 2) ≤ (wrap_around p bl tr).x ∧
          (wrap_around p bl tr).x < (tr.x - bl.x) / 2)
    ∧ (∀ (p bl tr : Vec3q) (ε : ℚ), bl.x = -tr.x → 0 < tr.x →
        tr.y - bl.y ≠ 0 → tr.z - bl.z ≠ 0 → 0 ≤ ε → ε < tr.x - bl.x →
        p.x = tr.x + ε → (wrap_around p bl tr).x = bl.x + ε) := by
  refine ⟨?_, ?_, ?_⟩
  · intro p bl tr hx hy hz
    unfold wrap_around
    apply wrap_around_basis_idem
    rw [mat3q_det_diag]
    exact mul_ne_zero (mul_ne_zero hx hy) hz
  · intro p bl tr hx hy hz
    rw [wrap_around_diag p bl tr hx.ne' hy hz]
    obtain ⟨k, hk⟩ := modHalfLen_sub_int_mul p.x (tr.x - bl.x) hx.ne'
    obtain ⟨hmem1, hmem2⟩ := modHalfLen_mem_cell p.x (tr.x - bl.x) hx
    exact ⟨k, hk, hmem1, hmem2⟩
  · intro p bl tr ε hbl htr hy hz hε0 hεL hpx
    have hLx : (0 : ℚ) < tr.x - bl.x := by rw [hbl]; linarith
    rw [wrap_around_diag p bl tr hLx.ne' hy hz]
    show modHalfLen p.x (tr.x - bl.x) = bl.x + ε
    have hhalf : (tr.x - bl.x) / 2 = tr.x := by rw [hbl]; ring
    have hpx2 : p.x = (tr.x - bl.x) / 2 + ε := by rw [hhalf, hpx]
    rw [hpx2, modHalfLen_centred (tr.x - bl.x) ε hLx hε0 hεL, hhalf]
    rw [hbl]

/-- Witness for the amended C3 statement at a concrete origin-centred box. -/
theorem wrap_around_idempotent_and_centred_witness :
    ((⟨-1, -1, -1⟩ : Vec3q).x = -(⟨1, 1, 1⟩ : Vec3q).x) ∧
    (wrap_around ⟨3/2, 0, 0⟩ ⟨-1, -1, -1⟩ ⟨1, 1, 1⟩).x = (⟨-1, -1, -1⟩ : Vec3q).x + 1/2 :=
  ⟨by norm_num,
   wrap_around_idempotent_and_centred.2.2 ⟨3/2, 0, 0⟩ ⟨-1, -1, -1⟩ ⟨1, 1, 1⟩ (1/2)
     (by norm_num) (by norm_num) (by norm_num) (by norm_num) (by norm_num)
     (by norm_num) (by norm_num)⟩

/-- C6: `calculate_time_left` returns exactly
`(shorttimeaverage * number_of_short_frames_left + longtimeaverage *
number_of_long_frames_left) * 1.03`, where long frames are those with index
divisible by `invert_m_every` (plus the checkpoint start frame), short frames
are the rest, and whenever the list of short-frame times is empty the
long-time average is silently substituted for the short-time average. -/
theorem calculate_time_left_formula (disable_jit : Bool) (times : ℕ → ℚ)
    (frameno num_frames invert_m_every checkpoint_start_from_frame : ℕ)
    (hm : 0 < invert_m_every) :
    (calculate_time_left disable_jit times frameno num_frames invert_m_every
        checkpoint_start_from_frame).1 =
      ((eta_shortLeft frameno num_frames invert_m_every : ℚ) *
          eta_shortAvg disable_jit
            (eta_shortTimes times frameno invert_m_every checkpoint_start_from_frame)
            (eta_longTimes times frameno invert_m_every checkpoint_start_from_frame)
        + (eta_longLeft frameno num_frames invert_m_every : ℚ) *
          eta_longAvg disable_jit
            (eta_longTimes times frameno invert_m_every checkpoint_start_from_frame))
        * (103 / 100)
    ∧ (eta_shortTimes times frameno invert_m_every checkpoint_start_from_frame = [] →
        eta_shortAvg disable_jit
            (eta_shortTimes times frameno invert_m_every checkpoint_start_from_frame)
            (eta_longTimes times frameno invert_m_every checkpoint_start_from_frame) =
          eta_longAvg disable_jit
            (eta_longTimes times frameno invert_m_every checkpoint_start_from_frame)) := by
  constructor
  · unfold calculate_time_left
    rw [ctl_shorttimeaverage_eq, ctl_longtimeaverage_eq, ctl_shortleft_eq, ctl_longleft_eq]
  · intro hs
    unfold eta_shortAvg
    rw [if_pos hs]

/-- Witness for C6 at a concrete frame configuration. -/
theorem calculate_time_left_formula_witness :
    (0 < 5) ∧
    ((calculate_time_left false (fun _ => 1) 3 10 5 0).1 =
      ((eta_shortLeft 3 10 5 : ℚ) *
          eta_shortAvg false (eta_shortTimes (fun _ => 1) 3 5 0) (eta_longTimes (fun _ => 1) 3 5 0)
        + (eta_longLeft 3 10 5 : ℚ) *
          eta_longAvg false (eta_longTimes (fun _ => 1) 3 5 0)) * (103 / 100)
     ∧ (eta_shortTimes (fun _ => 1) 3 5 0 = [] →
        eta_shortAvg false (eta_shortTimes (fun _ => 1) 3 5 0) (eta_longTimes (fun _ => 1) 3 5 0) =
          eta_longAvg false (eta_longTimes (fun _ => 1) 3 5 0))) :=
  ⟨by norm_num, calculate_time_left_formula false (fun _ => 1) 3 10 5 0 (by norm_num)⟩

/-- C1: in `fts` mode with every force, torque and stresslet component
prescribed and a non-singular grand resistance matrix, the branch succeeds, the
returned velocity vector exactly solves
`grand_resistance_matrix · velocity_vector = force_vector`, and the returned
`Fa_out`, `Ta_out`, `Sa_out` are the prescribed inputs. -/
theorem generate_output_fts_solves {n : ℕ}
    (grand_resistance_matrix : Matrix (Fin n) (Fin n) ℚ)
    (Fa_in Ta_in Sa_in Fb_in DFb_in : List (Option ℚ))
    (hdet : grand_resistance_matrix.det ≠ 0)
    (hall : allSet (Fa_in ++ Ta_in ++ Sa_in ++ Fb_in ++ DFb_in) = true) :
    ∃ force_vector : List ℚ,
      construct_force_vector_from_fts Fa_in Ta_in Sa_in Fb_in DFb_in = some force_vector ∧
      generate_output_FTSUOE_fts grand_resistance_matrix Fa_in Ta_in Sa_in Fb_in DFb_in =
        Except.ok ⟨np_linalg_solve grand_resistance_matrix (listToVec force_vector),
                   Fa_in, Ta_in, Sa_in⟩ ∧
      grand_resistance_matrix.mulVec
          (np_linalg_solve grand_resistance_matrix (listToVec force_vector)) =
        listToVec force_vector := by
  have hseq : construct_force_vector_from_fts Fa_in Ta_in Sa_in Fb_in DFb_in =
      some ((Fa_in ++ Ta_in ++ Sa_in ++ Fb_in ++ DFb_in).filterMap id) :=
    sequenceOption_of_allSet _ hall
  refine ⟨(Fa_in ++ Ta_in ++ Sa_in ++ Fb_in ++ DFb_in).filterMap id, hseq, ?_, ?_⟩
  · unfold generate_output_FTSUOE_fts
    rw [hseq]
  · exact np_linalg_solve_solves _ _ hdet

/-- Witness for C1 on a concrete 1×1 system `2 · v = 3`. -/
theorem generate_output_fts_solves_witness :
    ((Matrix.of ![![(2 : ℚ)]]).det ≠ 0) ∧
    (allSet ([some 3] ++ [] ++ [] ++ [] ++ []) = true) ∧
    (∃ force_vector : List ℚ,
      construct_force_vector_from_fts [some 3] [] [] [] [] = some force_vector ∧
      generate_output_FTSUOE_fts (Matrix.of ![![(2 : ℚ)]]) [some 3] [] [] [] [] =
        Except.ok ⟨np_linalg_solve (Matrix.of ![![(2 : ℚ)]]) (listToVec force_vector),
                   [some 3], [], []⟩ ∧
      (Matrix.of ![![(2 : ℚ)]]).mulVec
          (np_linalg_solve (Matrix.of ![![(2 : ℚ)]]) (listToVec force_vector)) =
        listToVec force_vector) :=
  ⟨by simp [Matrix.det_fin_one], rfl,
   generate_output_fts_solves (Matrix.of ![![(2 : ℚ)]]) [some 3] [] [] [] []
     (by simp [Matrix.det_fin_one]) rfl⟩

/-- C7 counterexample: in `ufteu` mode with extraction requested, the returned
`force_on_wall_due_to_dumbbells` is exactly the numeric scalar `0` left over
from the line-245 initialisation (the same value as when no extraction is
requested), not a distinguishable unsupported-operation signal; only the
`ufte` branch produces the array value. -/
theorem ufteu_wall_force_is_scalar_zero :
    force_on_wall_due_to_dumbbells_out "ufteu" true [[1, 2, 3]] =
      WallForceValue.scalar 0 ∧
    force_on_wall_due_to_dumbbells_out "ufte" true [[1, 2, 3]] =
      WallForceValue.array [[1, 2, 3]] := by
  exact ⟨rfl, rfl⟩

/-- C7 (amended): in `ufteu` mode with extraction requested,
`generate_output_FTSUOE` does not compute the wall force — it emits the
line-415 warning and nothing else — and the returned
`force_on_wall_due_to_dumbbells` is the numeric default `0` of the line-245
initialisation (so the warning, not the returned value, is the
unsupported-operation signal). -/
theorem ufteu_wall_force_amended :
    (∀ (extract : Bool) (computed : List (List ℚ)),
      force_on_wall_due_to_dumbbells_out "ufteu" extract computed =
        WallForceValue.scalar 0)
    ∧ generate_output_FTSUOE_warnings "ufteu" true =
        [("WARNING: Cannot extract force on wall due to dumbbells in UFTEU mode. Use UFTE mode instead.")]
    ∧ generate_output_FTSUOE_warnings "ufteu" false = [] := by
  refine ⟨?_, rfl, rfl⟩
  intro extract computed
  cases extract <;> rfl

/-- C4: the explosion check returns `True` exactly when the incoming error
flag is set, or explosion protection is on and some new dumbbell displacement
has norm strictly greater than 5; a displacement of magnitude 6 trips it, one
of magnitude 4 does not, and the over-90° rotation-angle branch (which only
prints) never affects the returned value — the result does not depend on the
old displacements at all. -/
theorem dumbbell_explosion_check_iff :
    (∀ (error : Prop) (dumbbell_deltax new_dumbbell_deltax : List Vec3)
        (explosion_protection : Prop),
      did_something_go_wrong_with_dumbells error dumbbell_deltax new_dumbbell_deltax
          explosion_protection ↔
        error ∨ (explosion_protection ∧ ∃ v ∈ new_dumbbell_deltax, 5 < vnorm v))
    ∧ (∀ dumbbell_deltax : List Vec3,
        did_something_go_wrong_with_dumbells False dumbbell_deltax
          [(⟨6, 0, 0⟩ : Vec3)] True)
    ∧ (∀ dumbbell_deltax : List Vec3,
        ¬ did_something_go_wrong_with_dumbells False dumbbell_deltax
          [(⟨4, 0, 0⟩ : Vec3)] True) := by
  have h6 : vnorm ⟨6, 0, 0⟩ = 6 := by
    unfold vnorm vnormSq
    rw [show (6 : ℝ) ^ 2 + (0 : ℝ) ^ 2 + (0 : ℝ) ^ 2 = 6 ^ 2 by norm_num]
    exact Real.sqrt_sq (by norm_num)
  have h4 : vnorm ⟨4, 0, 0⟩ = 4 := by
    unfold vnorm vnormSq
    rw [show (4 : ℝ) ^ 2 + (0 : ℝ) ^ 2 + (0 : ℝ) ^ 2 = 4 ^ 2 by norm_num]
    exact Real.sqrt_sq (by norm_num)
  refine ⟨did_something_iff, fun olds => ?_, fun olds => ?_⟩
  · rw [did_something_iff]
    exact Or.inr ⟨trivial, ⟨6, 0, 0⟩, by simp, by rw [h6]; norm_num⟩
  · rw [did_something_iff]
    rintro (h | ⟨-, v, hv, hnorm⟩)
    · exact h
    · have hveq : v = ⟨4, 0, 0⟩ := by simpa using hv
      rw [hveq, h4] at hnorm
      norm_num at hnorm

/-- Witness for C4: the magnitude-6 instance. -/
theorem dumbbell_explosion_check_iff_witness :
    did_something_go_wrong_with_dumbells False [] [(⟨6, 0, 0⟩ : Vec3)] True :=
  dumbbell_explosion_check_iff.2.1 []

/-- C10: the error flag is monotone through every diagnostic check — each of
the three checks returns `True` whenever its error argument is `True`, and
`are_some_of_the_particles_too_close` returns its error argument unchanged for
every input. -/
theorem error_flag_monotone :
    (∀ (dumbbell_deltax new_dumbbell_deltax : List Vec3) (explosion_protection : Prop),
      did_something_go_wrong_with_dumbells True dumbbell_deltax new_dumbbell_deltax
        explosion_protection)
    ∧ (∀ (element_sizes lam_range : List ℚ) (num_spheres : ℕ),
      do_we_have_all_size_ratios true element_sizes lam_range num_spheres = true)
    ∧ (∀ (error : Bool) (printout : ℕ) (s_dash_range : List ℚ)
        (sphere_positions dumbbell_positions dumbbell_deltax : List Vec3)
        (sphere_sizes dumbbell_sizes : List ℚ) (element_positions : List Vec3),
      are_some_of_the_particles_too_close error printout s_dash_range sphere_positions
          dumbbell_positions dumbbell_deltax sphere_sizes dumbbell_sizes element_positions =
        error) := by
  refine ⟨fun olds news ep => ?_, fun es lr ns => ?_, fun _ _ _ _ _ _ _ _ _ => rfl⟩
  · exact (did_something_iff True olds news ep).mpr (Or.inl trivial)
  · unfold do_we_have_all_size_ratios
    dsimp only
    split <;> rfl

/-- Witness for C10 at concrete arguments. -/
theorem error_flag_monotone_witness :
    did_something_go_wrong_with_dumbells True [] [] True ∧
    do_we_have_all_size_ratios true [1] [1] 0 = true :=
  ⟨error_flag_monotone.1 [] [] True, error_flag_monotone.2.1 [1] [1] 0⟩

/-! ### Vector algebra for the rotation updater -/

theorem vdot_comm (a b : Vec3) : vdot a b = vdot b a := by
  unfold vdot; ring

theorem vdot_self (v : Vec3) : vdot v v = vnormSq v := by
  unfold vdot vnormSq; ring

theorem vdot_smul_smul (α β : ℝ) (u v : Vec3) :
    vdot (α • u) (β • v) = α * β * vdot u v := by
  unfold vdot; simp; ring

theorem vcross_smul_smul (α β : ℝ) (u v : Vec3) :
    vcross (α • u) (β • v) = (α * β) • vcross u v := by
  unfold vcross; ext <;> simp <;> ring

theorem vdot_cross_left (a b : Vec3) : vdot (vcross a b) a = 0 := by
  unfold vdot vcross; ring

theorem vdot_cross_right (a b : Vec3) : vdot (vcross a b) b = 0 := by
  unfold vdot vcross; ring

/-- Lagrange's identity for the cross product. -/
theorem vnormSq_cross (a b : Vec3) :
    vnormSq (vcross a b) = vnormSq a * vnormSq b - (vdot a b) ^ 2 := by
  unfold vnormSq vcross vdot; ring

/-- The scalar core of the determinant computation for the frame matrix. -/
theorem det_core (ω p : Vec3) :
    vdot (vcross ω p) (vcross (vcross ω (vcross ω p)) ω) =
      vnormSq ω * vnormSq (vcross ω p) := by
  unfold vdot vcross vnormSq; ring

/-- The scalar core of the second-column norm computation. -/
theorem c2_core (ω p : Vec3) :
    vdot (vcross ω (vcross ω p)) (vcross ω (vcross ω p)) =
      vnormSq ω * vnormSq (vcross ω p) := by
  unfold vdot vcross vnormSq; ring

theorem mat3_mulVec_sub (M : Mat3) (a b : Vec3) :
    mat3_mulVec M a - mat3_mulVec M b = mat3_mulVec M (a - b) := by
  unfold mat3_mulVec; ext <;> simp <;> ring

theorem mat3_invMulVec_sub (M : Mat3) (a b : Vec3) :
    mat3_invMulVec M a - mat3_invMulVec M b = mat3_invMulVec M (a - b) := by
  unfold mat3_invMulVec vdot; ext <;> simp <;> ring

theorem rotZ_sub (φ : ℝ) (a b : Vec3) : rotZ φ a - rotZ φ b = rotZ φ (a - b) := by
  unfold rotZ; ext <;> simp <;> ring

theorem rotZ_zero (v : Vec3) : rotZ 0 v = v := by
  unfold rotZ; ext <;> simp

/-- Cramer inversion: `M · (M⁻¹ · v) = v` for a non-singular matrix. -/
theorem mat3_mulVec_invMulVec (M : Mat3) (h : det3 M ≠ 0) (v : Vec3) :
    mat3_mulVec M (mat3_invMulVec M v) = v := by
  unfold mat3_mulVec mat3_invMulVec
  ext <;> simp <;> field_simp <;> (unfold det3 vdot vcross; ring)

theorem det3_identity : det3 np_identity3 = 1 := by
  unfold det3 np_identity3 vdot vcross; norm_num

theorem mat3_mulVec_identity (v : Vec3) : mat3_mulVec np_identity3 v = v := by
  unfold mat3_mulVec np_identity3; ext <;> simp

theorem mat3_invMulVec_identity (v : Vec3) : mat3_invMulVec np_identity3 v = v := by
  unfold mat3_invMulVec np_identity3 det3 vdot vcross; ext <;> simp

/-- Norm of `M · u` for a matrix with orthogonal columns of norms
`√s2, √s2, 1`. -/
theorem vnormSq_mulVec_orth (M : Mat3) (s2 : ℝ)
    (h11 : vdot M.c1 M.c1 = s2) (h22 : vdot M.c2 M.c2 = s2)
    (h33 : vdot M.c3 M.c3 = 1) (h12 : vdot M.c1 M.c2 = 0)
    (h13 : vdot M.c1 M.c3 = 0) (h23 : vdot M.c2 M.c3 = 0) (u : Vec3) :
    vnormSq (mat3_mulVec M u) = (u.x ^ 2 + u.y ^ 2) * s2 + u.z ^ 2 := by
  unfold vdot at h11 h22 h33 h12 h13 h23
  unfold vnormSq mat3_mulVec
  simp only [Vec3.add_x, Vec3.add_y, Vec3.add_z, Vec3.smul_x, Vec3.smul_y, Vec3.smul_z]
  linear_combination u.x ^ 2 * h11 + u.y ^ 2 * h22 + u.z ^ 2 * h33 +
    (2 * u.x * u.y) * h12 + (2 * u.x * u.z) * h13 + (2 * u.y * u.z) * h23

/-- Rotating about the third axis before applying such a matrix does not
change the norm of the image. -/
theorem vnormSq_mulVec_rotZ (M : Mat3) (s2 : ℝ)
    (h11 : vdot M.c1 M.c1 = s2) (h22 : vdot M.c2 M.c2 = s2)
    (h33 : vdot M.c3 M.c3 = 1) (h12 : vdot M.c1 M.c2 = 0)
    (h13 : vdot M.c1 M.c3 = 0) (h23 : vdot M.c2 M.c3 = 0) (φ : ℝ) (u : Vec3) :
    vnormSq (mat3_mulVec M (rotZ φ u)) = vnormSq (mat3_mulVec M u) := by
  rw [vnormSq_mulVec_orth M s2 h11 h22 h33 h12 h13 h23,
    vnormSq_mulVec_orth M s2 h11 h22 h33 h12 h13 h23]
  simp only [rotZ]
  linear_combination s2 * (u.x ^ 2 + u.y ^ 2) * Real.sin_sq_add_cos_sq φ

/-- Structure of the raw frame matrix for a nonzero angular velocity and a
helper axis not parallel to it: orthogonal columns, unit third column, equal
first two column norms, determinant equal to that common squared norm
`|ω×p|²/|ω|²`, which is positive. -/
theorem rot_matrix_raw_facts (ω p : Vec3) (hω : ω ≠ 0) (hc : vcross ω p ≠ 0) :
    vdot (rot_matrix_raw ω p).c1 (rot_matrix_raw ω p).c1 =
        vnormSq (vcross ω p) / vnormSq ω
    ∧ vdot (rot_matrix_raw ω p).c2 (rot_matrix_raw ω p).c2 =
        vnormSq (vcross ω p) / vnormSq ω
    ∧ vdot (rot_matrix_raw ω p).c3 (rot_matrix_raw ω p).c3 = 1
    ∧ vdot (rot_matrix_raw ω p).c1 (rot_matrix_raw ω p).c2 = 0
    ∧ vdot (rot_matrix_raw ω p).c1 (rot_matrix_raw ω p).c3 = 0
    ∧ vdot (rot_matrix_raw ω p).c2 (rot_matrix_raw ω p).c3 = 0
    ∧ det3 (rot_matrix_raw ω p) = vnormSq (vcross ω p) / vnormSq ω
    ∧ 0 < vnormSq (vcross ω p) / vnormSq ω := by
  have hO : vnorm ω ≠ 0 := (vnorm_pos_of_ne ω hω).ne'
  have h2 : (vnorm ω) ^ 2 = vnormSq ω := vnorm_sq ω
  have hN : (0 : ℝ) < vnormSq ω := vnormSq_pos_of_ne ω hω
  have hq : (0 : ℝ) < vnormSq (vcross ω p) := vnormSq_pos_of_ne _ hc
  have hO2 : (vnorm ω) ^ 2 ≠ 0 := pow_ne_zero 2 hO
  refine ⟨?_, ?_, ?_, ?_, ?_, ?_, ?_, div_pos hq hN⟩
  · show vdot ((vnorm ω)⁻¹ • vcross ω p) ((vnorm ω)⁻¹ • vcross ω p) = _
    rw [vdot_smul_smul, vdot_self, ← h2, pow_two, div_eq_mul_inv, mul_inv]
    ring
  · show vdot (((vnorm ω) ^ 2)⁻¹ • vcross ω (vcross ω p))
        (((vnorm ω) ^ 2)⁻¹ • vcross ω (vcross ω p)) = _
    rw [vdot_smul_smul, c2_core, ← h2,
      show ((vnorm ω) ^ 2)⁻¹ * ((vnorm ω) ^ 2)⁻¹ * ((vnorm ω) ^ 2 * vnormSq (vcross ω p)) =
          (((vnorm ω) ^ 2)⁻¹ * (vnorm ω) ^ 2) * (((vnorm ω) ^ 2)⁻¹ * vnormSq (vcross ω p))
        from by ring,
      inv_mul_cancel₀ hO2, one_mul, div_eq_mul_inv]
    ring
  · show vdot ((vnorm ω)⁻¹ • ω) ((vnorm ω)⁻¹ • ω) = 1
    rw [vdot_smul_smul, vdot_self, ← h2,
      show (vnorm ω)⁻¹ * (vnorm ω)⁻¹ * (vnorm ω) ^ 2 =
          ((vnorm ω)⁻¹ * vnorm ω) * ((vnorm ω)⁻¹ * vnorm ω) from by ring,
      inv_mul_cancel₀ hO]
    norm_num
  · show vdot ((vnorm ω)⁻¹ • vcross ω p)
        (((vnorm ω) ^ 2)⁻¹ • vcross ω (vcross ω p)) = 0
    rw [vdot_smul_smul, vdot_comm, vdot_cross_right]
    ring
  · show vdot ((vnorm ω)⁻¹ • vcross ω p) ((vnorm ω)⁻¹ • ω) = 0
    rw [vdot_smul_smul, vdot_cross_left]
    ring
  · show vdot (((vnorm ω) ^ 2)⁻¹ • vcross ω (vcross ω p)) ((vnorm ω)⁻¹ • ω) = 0
    rw [vdot_smul_smul, vdot_cross_left]
    ring
  · show vdot ((vnorm ω)⁻¹ • vcross ω p)
        (vcross (((vnorm ω) ^ 2)⁻¹ • vcross ω (vcross ω p)) ((vnorm ω)⁻¹ • ω)) = _
    rw [vcross_smul_smul, vdot_smul_smul, det_core, ← h2,
      show (vnorm ω)⁻¹ * (((vnorm ω) ^ 2)⁻¹ * (vnorm ω)⁻¹) *
            ((vnorm ω) ^ 2 * vnormSq (vcross ω p)) =
          (((vnorm ω) ^ 2)⁻¹ * (vnorm ω) ^ 2) *
            ((vnorm ω)⁻¹ * (vnorm ω)⁻¹ * vnormSq (vcross ω p)) from by ring,
      inv_mul_cancel₀ hO2, one_mul, pow_two, div_eq_mul_inv, mul_inv]
    ring

/-- Branch analysis of lines 92-93: for a nonzero angular velocity the frame
matrix is the raw build over a helper axis (`[0,0,1]` exactly when
`np.allclose(abs(ω/O), [1,0,0])`, else `[1,0,0]`) that is never parallel to
the angular velocity. -/
theorem rot_matrix_eq_raw (ω : Vec3) (hω : ω ≠ 0) :
    ∃ p : Vec3, rot_matrix ω = rot_matrix_raw ω p ∧ vcross ω p ≠ 0 := by
  by_cases hcl : np_allclose3 ⟨|ω.x / vnorm ω|, |ω.y / vnorm ω|, |ω.z / vnorm ω|⟩ ⟨1, 0, 0⟩
  · refine ⟨⟨0, 0, 1⟩, ?_, ?_⟩
    · unfold rot_matrix
      rw [if_neg hω]
      show rot_matrix_raw ω
          (if np_allclose3 ⟨|ω.x / vnorm ω|, |ω.y / vnorm ω|, |ω.z / vnorm ω|⟩ ⟨1, 0, 0⟩
           then ⟨0, 0, 1⟩ else ⟨1, 0, 0⟩) = rot_matrix_raw ω ⟨0, 0, 1⟩
      rw [if_pos hcl]
    · intro hcr
      have hcy : ω.z * 0 - ω.x * 1 = 0 := congrArg Vec3.y hcr
      have hx0 : ω.x = 0 := by linarith
      obtain ⟨h1, h2, h3⟩ := hcl
      unfold np_isclose at h1
      rw [hx0] at h1
      norm_num at h1
  · refine ⟨⟨1, 0, 0⟩, ?_, ?_⟩
    · unfold rot_matrix
      rw [if_neg hω]
      show rot_matrix_raw ω
          (if np_allclose3 ⟨|ω.x / vnorm ω|, |ω.y / vnorm ω|, |ω.z / vnorm ω|⟩ ⟨1, 0, 0⟩
           then ⟨0, 0, 1⟩ else ⟨1, 0, 0⟩) = rot_matrix_raw ω ⟨1, 0, 0⟩
      rw [if_neg hcl]
    · intro hcr
      have hcy : ω.z * 1 - ω.x * 0 = 0 := congrArg Vec3.y hcr
      have hcz : ω.x * 0 - ω.y * 1 = 0 := congrArg Vec3.z hcr
      have hz0 : ω.z = 0 := by linarith
      have hy0 : ω.y = 0 := by linarith
      have hx0 : ω.x ≠ 0 := fun hx => hω (Vec3.ext hx hy0 hz0)
      apply hcl
      have hOeq : vnorm ω = |ω.x| := by
        unfold vnorm vnormSq
        rw [hy0, hz0, show ω.x ^ 2 + (0 : ℝ) ^ 2 + (0 : ℝ) ^ 2 = ω.x ^ 2 by ring]
        exact Real.sqrt_sq_eq_abs ω.x
      unfold np_allclose3 np_isclose
      refine ⟨?_, ?_, ?_⟩
      · show abs (abs (ω.x / vnorm ω) - 1) ≤ 1 / 10 ^ 8 + (1 / 10 ^ 5) * abs (1 : ℝ)
        rw [hOeq, abs_div, abs_abs, div_self (abs_ne_zero.mpr hx0)]
        norm_num
      · show abs (abs (ω.y / vnorm ω) - 0) ≤ 1 / 10 ^ 8 + (1 / 10 ^ 5) * abs (0 : ℝ)
        rw [hy0]
        norm_num
      · show abs (abs (ω.z / vnorm ω) - 0) ≤ 1 / 10 ^ 8 + (1 / 10 ^ 5) * abs (0 : ℝ)
        rw [hz0]
        norm_num

/-- Combined structural facts about the frame matrix of a nonzero angular
velocity: third column `ω/|ω|`, orthogonal columns, unit third column, equal
first-two column norms, and positive determinant equal to that norm. -/
theorem rot_matrix_facts (ω : Vec3) (hω : ω ≠ 0) :
    (rot_matrix ω).c3 = (vnorm ω)⁻¹ • ω
    ∧ vdot (rot_matrix ω).c1 (rot_matrix ω).c2 = 0
    ∧ vdot (rot_matrix ω).c1 (rot_matrix ω).c3 = 0
    ∧ vdot (rot_matrix ω).c2 (rot_matrix ω).c3 = 0
    ∧ vdot (rot_matrix ω).c3 (rot_matrix ω).c3 = 1
    ∧ vdot (rot_matrix ω).c1 (rot_matrix ω).c1 = vdot (rot_matrix ω).c2 (rot_matrix ω).c2
    ∧ det3 (rot_matrix ω) = vdot (rot_matrix ω).c1 (rot_matrix ω).c1
    ∧ 0 < det3 (rot_matrix ω) := by
  obtain ⟨p, hM, hc⟩ := rot_matrix_eq_raw ω hω
  obtain ⟨f11, f22, f33, f12, f13, f23, fdet, fpos⟩ := rot_matrix_raw_facts ω p hω hc
  rw [hM]
  exact ⟨rfl, f12, f13, f23, f33, by rw [f11, f22], by rw [fdet, f11],
    by rw [fdet]; exact fpos⟩

/-- The spherical-coordinate azimuth advance of lines 109-123 acts on the
frame coordinates exactly as the rotation about the z-axis by the angle
`timestep * O` (including the pole and origin edge cases). -/
theorem sphericalStep_eq_rotZ (O timestep : ℝ) (v : Vec3) :
    sphericalStep O timestep v = rotZ (timestep * O) v := by
  obtain ⟨x, y, z⟩ := v
  by_cases hxy : x = 0 ∧ y = 0
  · obtain ⟨hx, hy⟩ := hxy
    subst hx
    subst hy
    unfold sphericalStep rotZ euler_timestep
    by_cases hz : z = 0
    · subst hz
      have hr : Real.sqrt ((0 : ℝ) ^ 2 + (0 : ℝ) ^ 2 + (0 : ℝ) ^ 2) = 0 := by
        norm_num
      ext
      · show Real.sqrt ((0 : ℝ) ^ 2 + (0 : ℝ) ^ 2 + (0 : ℝ) ^ 2) *
            Real.sin (Real.arccos ((0 : ℝ) / Real.sqrt ((0 : ℝ) ^ 2 + (0 : ℝ) ^ 2 + (0 : ℝ) ^ 2))) *
            Real.cos ((if (0 : ℝ) = 0 ∧ (0 : ℝ) = 0 then 0 else np_arctan2 0 0) + timestep * O) =
          0 * Real.cos (timestep * O) - 0 * Real.sin (timestep * O)
        rw [hr]
        ring
      · show Real.sqrt ((0 : ℝ) ^ 2 + (0 : ℝ) ^ 2 + (0 : ℝ) ^ 2) *
            Real.sin (Real.arccos ((0 : ℝ) / Real.sqrt ((0 : ℝ) ^ 2 + (0 : ℝ) ^ 2 + (0 : ℝ) ^ 2))) *
            Real.sin ((if (0 : ℝ) = 0 ∧ (0 : ℝ) = 0 then 0 else np_arctan2 0 0) + timestep * O) =
          0 * Real.sin (timestep * O) + 0 * Real.cos (timestep * O)
        rw [hr]
        ring
      · show Real.sqrt ((0 : ℝ) ^ 2 + (0 : ℝ) ^ 2 + (0 : ℝ) ^ 2) *
            Real.cos (Real.arccos ((0 : ℝ) / Real.sqrt ((0 : ℝ) ^ 2 + (0 : ℝ) ^ 2 + (0 : ℝ) ^ 2))) = 0
        rw [hr]
        ring
    · have hr : Real.sqrt ((0 : ℝ) ^ 2 + (0 : ℝ) ^ 2 + z ^ 2) = |z| := by
        rw [show (0 : ℝ) ^ 2 + (0 : ℝ) ^ 2 + z ^ 2 = z ^ 2 by ring, Real.sqrt_sq_eq_abs]
      have habs : abs (z / abs z) = 1 := by
        rw [abs_div, abs_abs, div_self (abs_ne_zero.mpr hz)]
      have hsinT : Real.sin (Real.arccos (z / abs z)) = 0 := by
        rw [Real.sin_arccos, show (1 : ℝ) - (z / abs z) ^ 2 = 0 by
          rw [div_pow, sq_abs, div_self (pow_ne_zero 2 hz)]; ring]
        exact Real.sqrt_zero
      have hcosT : Real.cos (Real.arccos (z / abs z)) = z / abs z :=
        Real.cos_arccos (abs_le.mp habs.le).1 (abs_le.mp habs.le).2
      have habs0 : abs z ≠ 0 := abs_ne_zero.mpr hz
      ext
      · show Real.sqrt ((0 : ℝ) ^ 2 + (0 : ℝ) ^ 2 + z ^ 2) *
            Real.sin (Real.arccos (z / Real.sqrt ((0 : ℝ) ^ 2 + (0 : ℝ) ^ 2 + z ^ 2))) *
            Real.cos ((if (0 : ℝ) = 0 ∧ (0 : ℝ) = 0 then 0 else np_arctan2 0 0) + timestep * O) =
          0 * Real.cos (timestep * O) - 0 * Real.sin (timestep * O)
        rw [hr, hsinT]
        ring
      · show Real.sqrt ((0 : ℝ) ^ 2 + (0 : ℝ) ^ 2 + z ^ 2) *
            Real.sin (Real.arccos (z / Real.sqrt ((0 : ℝ) ^ 2 + (0 : ℝ) ^ 2 + z ^ 2))) *
            Real.sin ((if (0 : ℝ) = 0 ∧ (0 : ℝ) = 0 then 0 else np_arctan2 0 0) + timestep * O) =
          0 * Real.sin (timestep * O) + 0 * Real.cos (timestep * O)
        rw [hr, hsinT]
        ring
      · show Real.sqrt ((0 : ℝ) ^ 2 + (0 : ℝ) ^ 2 + z ^ 2) *
            Real.cos (Real.arccos (z / Real.sqrt ((0 : ℝ) ^ 2 + (0 : ℝ) ^ 2 + z ^ 2))) = z
        rw [hr, hcosT, mul_comm, div_mul_cancel₀ _ habs0]
  · have hx2 : (0 : ℝ) < x ^ 2 + y ^ 2 := by
      rcases not_and_or.mp hxy with hx | hy
      · nlinarith [sq_nonneg y, lt_of_le_of_ne (sq_nonneg x) (Ne.symm (pow_ne_zero 2 hx))]
      · nlinarith [sq_nonneg x, lt_of_le_of_ne (sq_nonneg y) (Ne.symm (pow_ne_zero 2 hy))]
    have hρ : 0 < Real.sqrt (x ^ 2 + y ^ 2) := Real.sqrt_pos.mpr hx2
    have hr2pos : 0 < x ^ 2 + y ^ 2 + z ^ 2 := by nlinarith [sq_nonneg z]
    have hr : 0 < Real.sqrt (x ^ 2 + y ^ 2 + z ^ 2) := Real.sqrt_pos.mpr hr2pos
    have hrsq : Real.sqrt (x ^ 2 + y ^ 2 + z ^ 2) ^ 2 = x ^ 2 + y ^ 2 + z ^ 2 :=
      Real.sq_sqrt hr2pos.le
    have hzb : |z| ≤ Real.sqrt (x ^ 2 + y ^ 2 + z ^ 2) := by
      rw [← Real.sqrt_sq_eq_abs]
      exact Real.sqrt_le_sqrt (by nlinarith [sq_nonneg x, sq_nonneg y])
    have hb1 : -1 ≤ z / Real.sqrt (x ^ 2 + y ^ 2 + z ^ 2) := by
      rw [le_div_iff₀ hr]
      nlinarith [neg_abs_le z]
    have hb2 : z / Real.sqrt (x ^ 2 + y ^ 2 + z ^ 2) ≤ 1 := by
      rw [div_le_one hr]
      nlinarith [le_abs_self z]
    have hcosT : Real.cos (Real.arccos (z / Real.sqrt (x ^ 2 + y ^ 2 + z ^ 2))) =
        z / Real.sqrt (x ^ 2 + y ^ 2 + z ^ 2) := Real.cos_arccos hb1 hb2
    have hsinT : Real.sin (Real.arccos (z / Real.sqrt (x ^ 2 + y ^ 2 + z ^ 2))) =
        Real.sqrt (1 - (z / Real.sqrt (x ^ 2 + y ^ 2 + z ^ 2)) ^ 2) :=
      Real.sin_arccos _
    have hfrac : 1 - (z / Real.sqrt (x ^ 2 + y ^ 2 + z ^ 2)) ^ 2 =
        (x ^ 2 + y ^ 2) / (x ^ 2 + y ^ 2 + z ^ 2) := by
      rw [div_pow, hrsq]
      field_simp
    have hkey : Real.sqrt (x ^ 2 + y ^ 2 + z ^ 2) *
        Real.sqrt (1 - (z / Real.sqrt (x ^ 2 + y ^ 2 + z ^ 2)) ^ 2) =
        Real.sqrt (x ^ 2 + y ^ 2) := by
      rw [hfrac, Real.sqrt_div (by positivity) _,
        show Real.sqrt (x ^ 2 + y ^ 2 + z ^ 2) *
            (Real.sqrt (x ^ 2 + y ^ 2) / Real.sqrt (x ^ 2 + y ^ 2 + z ^ 2)) =
          Real.sqrt (x ^ 2 + y ^ 2) * (Real.sqrt (x ^ 2 + y ^ 2 + z ^ 2) /
            Real.sqrt (x ^ 2 + y ^ 2 + z ^ 2)) from by ring,
        div_self hr.ne', mul_one]
    have hC : (⟨x, y⟩ : ℂ) ≠ 0 := by
      intro h0
      exact hxy ⟨congrArg Complex.re h0, congrArg Complex.im h0⟩
    have hcosP : Real.cos (np_arctan2 y x) = x / Real.sqrt (x ^ 2 + y ^ 2) := by
      unfold np_arctan2
      rw [Complex.cos_arg hC, Complex.abs_apply, Complex.normSq_mk]
      ring_nf
    have hsinP : Real.sin (np_arctan2 y x) = y / Real.sqrt (x ^ 2 + y ^ 2) := by
      unfold np_arctan2
      rw [Complex.sin_arg, Complex.abs_apply, Complex.normSq_mk]
      ring_nf
    unfold sphericalStep rotZ euler_timestep
    ext
    · show Real.sqrt (x ^ 2 + y ^ 2 + z ^ 2) *
          Real.sin (Real.arccos (z / Real.sqrt (x ^ 2 + y ^ 2 + z ^ 2))) *
          Real.cos ((if x = 0 ∧ y = 0 then 0 else np_arctan2 y x) + timestep * O) =
        x * Real.cos (timestep * O) - y * Real.sin (timestep * O)
      rw [if_neg hxy, hsinT, Real.cos_add, hcosP, hsinP, hkey]
      field_simp
    · show Real.sqrt (x ^ 2 + y ^ 2 + z ^ 2) *
          Real.sin (Real.arccos (z / Real.sqrt (x ^ 2 + y ^ 2 + z ^ 2))) *
          Real.sin ((if x = 0 ∧ y = 0 then 0 else np_arctan2 y x) + timestep * O) =
        x * Real.sin (timestep * O) + y * Real.cos (timestep * O)
      rw [if_neg hxy, hsinT, Real.sin_add, hcosP, hsinP, hkey]
      field_simp
      ring
    · show Real.sqrt (x ^ 2 + y ^ 2 + z ^ 2) *
          Real.cos (Real.arccos (z / Real.sqrt (x ^ 2 + y ^ 2 + z ^ 2))) = z
      rw [hcosT, mul_comm, div_mul_cancel₀ _ hr.ne']

theorem vec3_add_sub_add (a b c : Vec3) : (a + b) - (a + c) = b - c := by
  ext <;> simp

theorem vec3_sub_sub (a b r : Vec3) : (a - r) - (b - r) = a - b := by
  ext <;> simp

theorem vec3_add_sub_cancel (a b : Vec3) : (a + b) - a = b := by
  ext <;> simp

/-- C2: for any sphere with a nonzero angular velocity (and marker endpoints
away from the sphere centre, where the Python arithmetic is well defined), one
Euler rotation step preserves the Euclidean distance between the sphere's two
rotation-marker endpoints: the update is a rigid transform. -/
theorem euler_timestep_rotation_rigid (sphere_positions : ℕ → Vec3)
    (sphere_rotations : ℕ → Fin 2 → Vec3) (new_sphere_positions : ℕ → Vec3)
    (Oa_out : ℕ → Vec3) (timestep : ℝ) (i : ℕ)
    (hω : Oa_out i ≠ 0)
    (hm0 : sphere_rotations i 0 ≠ sphere_positions i)
    (hm1 : sphere_rotations i 1 ≠ sphere_positions i) :
    vnorm (euler_timestep_rotation sphere_positions sphere_rotations
        new_sphere_positions Oa_out timestep i 0 -
      euler_timestep_rotation sphere_positions sphere_rotations
        new_sphere_positions Oa_out timestep i 1) =
    vnorm (sphere_rotations i 0 - sphere_rotations i 1) := by
  obtain ⟨hc3, f12, f13, f23, f33, f1122, fdet, fpos⟩ := rot_matrix_facts (Oa_out i) hω
  have hdet : det3 (rot_matrix (Oa_out i)) ≠ 0 := fpos.ne'
  unfold euler_timestep_rotation
  show vnorm ((new_sphere_positions i + mat3_mulVec (rot_matrix (Oa_out i))
        (sphericalStep (vnorm (Oa_out i)) timestep
          (mat3_invMulVec (rot_matrix (Oa_out i))
            (sphere_rotations i 0 - sphere_positions i)))) -
      (new_sphere_positions i + mat3_mulVec (rot_matrix (Oa_out i))
        (sphericalStep (vnorm (Oa_out i)) timestep
          (mat3_invMulVec (rot_matrix (Oa_out i))
            (sphere_rotations i 1 - sphere_positions i))))) =
    vnorm (sphere_rotations i 0 - sphere_rotations i 1)
  rw [sphericalStep_eq_rotZ, sphericalStep_eq_rotZ, vec3_add_sub_add,
    mat3_mulVec_sub, rotZ_sub, mat3_invMulVec_sub, vec3_sub_sub]
  unfold vnorm
  congr 1
  rw [vnormSq_mulVec_rotZ (rot_matrix (Oa_out i))
      (vdot (rot_matrix (Oa_out i)).c1 (rot_matrix (Oa_out i)).c1)
      rfl f1122.symm f33 f12 f13 f23,
    mat3_mulVec_invMulVec _ hdet]

/-- Witness for C2 at a concrete configuration (rotation about the z-axis). -/
theorem euler_timestep_rotation_rigid_witness :
    ((⟨0, 0, 2⟩ : Vec3) ≠ 0) ∧
    vnorm (euler_timestep_rotation (fun _ => 0)
        (fun _ j => if j = (0 : Fin 2) then ⟨1, 0, 0⟩ else ⟨0, 1, 0⟩)
        (fun _ => ⟨5, 0, 0⟩) (fun _ => ⟨0, 0, 2⟩) 1 0 0 -
      euler_timestep_rotation (fun _ => 0)
        (fun _ j => if j = (0 : Fin 2) then ⟨1, 0, 0⟩ else ⟨0, 1, 0⟩)
        (fun _ => ⟨5, 0, 0⟩) (fun _ => ⟨0, 0, 2⟩) 1 0 1) =
    vnorm ((if (0 : Fin 2) = (0 : Fin 2) then (⟨1, 0, 0⟩ : Vec3) else ⟨0, 1, 0⟩) -
      (if (1 : Fin 2) = (0 : Fin 2) then (⟨1, 0, 0⟩ : Vec3) else ⟨0, 1, 0⟩)) :=
  ⟨fun h => two_ne_zero (congrArg Vec3.z h),
   euler_timestep_rotation_rigid (fun _ => 0)
     (fun _ j => if j = (0 : Fin 2) then ⟨1, 0, 0⟩ else ⟨0, 1, 0⟩)
     (fun _ => ⟨5, 0, 0⟩) (fun _ => ⟨0, 0, 2⟩) 1 0
     (fun h => two_ne_zero (congrArg Vec3.z h))
     (by show (if (0 : Fin 2) = 0 then (⟨1, 0, 0⟩ : Vec3) else ⟨0, 1, 0⟩) ≠ (0 : Vec3)
         rw [if_pos rfl]
         exact fun h => one_ne_zero (congrArg Vec3.x h))
     (by show (if (1 : Fin 2) = 0 then (⟨1, 0, 0⟩ : Vec3) else ⟨0, 1, 0⟩) ≠ (0 : Vec3)
         rw [if_neg (by decide)]
         exact fun h => one_ne_zero (congrArg Vec3.y h))⟩

/-- C8: with exactly zero angular velocity and markers away from the centre,
the rotation step moves each marker rigidly with the centre: the marker offset
from the sphere centre is unchanged (identity rotation, no frame is built). -/
theorem euler_timestep_rotation_zero_omega (sphere_positions : ℕ → Vec3)
    (sphere_rotations : ℕ → Fin 2 → Vec3) (new_sphere_positions : ℕ → Vec3)
    (Oa_out : ℕ → Vec3) (timestep : ℝ) (i : ℕ) (j : Fin 2)
    (hω : Oa_out i = 0)
    (hm : sphere_rotations i j ≠ sphere_positions i) :
    euler_timestep_rotation sphere_positions sphere_rotations new_sphere_positions
        Oa_out timestep i j - new_sphere_positions i =
      sphere_rotations i j - sphere_positions i := by
  unfold euler_timestep_rotation
  show (new_sphere_positions i + mat3_mulVec (rot_matrix (Oa_out i))
      (sphericalStep (vnorm (Oa_out i)) timestep
        (mat3_invMulVec (rot_matrix (Oa_out i))
          (sphere_rotations i j - sphere_positions i)))) -
    new_sphere_positions i = sphere_rotations i j - sphere_positions i
  rw [hω, show rot_matrix 0 = np_identity3 from by unfold rot_matrix; rw [if_pos rfl],
    sphericalStep_eq_rotZ, vnorm_zero, mul_zero, rotZ_zero,
    mat3_invMulVec_identity, mat3_mulVec_identity, vec3_add_sub_cancel]

/-- Witness for C8 at a concrete configuration. -/
theorem euler_timestep_rotation_zero_omega_witness :
    ((fun _ : ℕ => (0 : Vec3)) 0 = 0) ∧
    ((⟨1, 0, 0⟩ : Vec3) ≠ (⟨4, 4, 4⟩ : Vec3)) ∧
    euler_timestep_rotation (fun _ => ⟨4, 4, 4⟩) (fun _ _ => ⟨1, 0, 0⟩)
        (fun _ => ⟨6, 6, 6⟩) (fun _ => 0) 1 0 0 - (⟨6, 6, 6⟩ : Vec3) =
      (⟨1, 0, 0⟩ : Vec3) - (⟨4, 4, 4⟩ : Vec3) :=
  ⟨rfl, fun h => by simpa using congrArg Vec3.x h,
   euler_timestep_rotation_zero_omega (fun _ => ⟨4, 4, 4⟩) (fun _ _ => ⟨1, 0, 0⟩)
     (fun _ => ⟨6, 6, 6⟩) (fun _ => 0) 1 0 0 rfl
     (fun h => by simpa using congrArg Vec3.x h)⟩

/-- C5 counterexample: at `ω = (1,1,0)` the code's frame matrix (built over
the helper axis `[1,0,0]`, since `abs(ω/|ω|)` is not close to `[1,0,0]`) is
not a proper rotation matrix: its determinant is `1/2`, not `1`, and its first
column is not a unit vector. -/
theorem rot_matrix_counterexample :
    det3 (rot_matrix ⟨1, 1, 0⟩) = 1 / 2 ∧
    det3 (rot_matrix ⟨1, 1, 0⟩) ≠ 1 ∧
    vdot (rot_matrix ⟨1, 1, 0⟩).c1 (rot_matrix ⟨1, 1, 0⟩).c1 ≠ 1 := by
  have hω : (⟨1, 1, 0⟩ : Vec3) ≠ 0 := fun h => one_ne_zero (congrArg Vec3.x h)
  have hOval : vnorm (⟨1, 1, 0⟩ : Vec3) = Real.sqrt 2 := by
    unfold vnorm vnormSq
    norm_num
  have hcl : ¬ np_allclose3
      ⟨|(1 : ℝ) / vnorm ⟨1, 1, 0⟩|, |(1 : ℝ) / vnorm ⟨1, 1, 0⟩|,
       |(0 : ℝ) / vnorm ⟨1, 1, 0⟩|⟩ ⟨1, 0, 0⟩ := by
    intro h
    obtain ⟨h1, -, -⟩ := h
    unfold np_isclose at h1
    rw [hOval] at h1
    have hs1 : (1.41 : ℝ) ≤ Real.sqrt 2 := by
      rw [show (1.41 : ℝ) = Real.sqrt (1.41 ^ 2) from (Real.sqrt_sq (by norm_num)).symm]
      exact Real.sqrt_le_sqrt (by norm_num)
    have hs0 : (0 : ℝ) < Real.sqrt 2 := lt_of_lt_of_le (by norm_num) hs1
    have hinv : 1 / Real.sqrt 2 ≤ 0.72 := by
      rw [div_le_iff₀ hs0]
      nlinarith
    have hinvpos : (0 : ℝ) ≤ 1 / Real.sqrt 2 := by positivity
    rw [abs_of_nonneg hinvpos, abs_of_nonpos (by nlinarith), abs_one] at h1
    nlinarith
  have hM : rot_matrix ⟨1, 1, 0⟩ = rot_matrix_raw ⟨1, 1, 0⟩ ⟨1, 0, 0⟩ := by
    unfold rot_matrix
    rw [if_neg hω]
    show rot_matrix_raw ⟨1, 1, 0⟩
        (if np_allclose3
            ⟨|(1 : ℝ) / vnorm ⟨1, 1, 0⟩|, |(1 : ℝ) / vnorm ⟨1, 1, 0⟩|,
             |(0 : ℝ) / vnorm ⟨1, 1, 0⟩|⟩ ⟨1, 0, 0⟩
         then ⟨0, 0, 1⟩ else ⟨1, 0, 0⟩) = rot_matrix_raw ⟨1, 1, 0⟩ ⟨1, 0, 0⟩
    rw [if_neg hcl]
  have hc : vcross ⟨1, 1, 0⟩ ⟨1, 0, 0⟩ ≠ (0 : Vec3) := by
    intro h
    have h2 : (1 : ℝ) * 0 - 1 * 1 = 0 := congrArg Vec3.z h
    norm_num at h2
  obtain ⟨f11, f22, f33, f12, f13, f23, fdet, fpos⟩ :=
    rot_matrix_raw_facts ⟨1, 1, 0⟩ ⟨1, 0, 0⟩ hω hc
  have hval : vnormSq (vcross (⟨1, 1, 0⟩ : Vec3) ⟨1, 0, 0⟩) /
      vnormSq (⟨1, 1, 0⟩ : Vec3) = 1 / 2 := by
    unfold vnormSq vcross
    norm_num
  refine ⟨?_, ?_, ?_⟩
  · rw [hM, fdet, hval]
  · rw [hM, fdet, hval]
    norm_num
  · rw [hM, f11, hval]
    norm_num

/-- C5 (amended): for every nonzero angular velocity the frame matrix built at
lines 89-97 has third column `ω/|ω|`, pairwise orthogonal columns, unit third
column, first two columns of equal (generally non-unit) norm, and determinant
equal to that common squared norm — positive, but equal to 1 (a proper
rotation) only when the angular velocity is perpendicular to the helper axis,
which the code picks as the x-axis, falling back to the z-axis exactly when
`np.allclose(abs(ω/|ω|), [1,0,0])`. -/
theorem rot_matrix_structure (ω : Vec3) (hω : ω ≠ 0) :
    (rot_matrix ω).c3 = (vnorm ω)⁻¹ • ω
    ∧ vdot (rot_matrix ω).c1 (rot_matrix ω).c2 = 0
    ∧ vdot (rot_matrix ω).c1 (rot_matrix ω).c3 = 0
    ∧ vdot (rot_matrix ω).c2 (rot_matrix ω).c3 = 0
    ∧ vdot (rot_matrix ω).c3 (rot_matrix ω).c3 = 1
    ∧ vdot (rot_matrix ω).c1 (rot_matrix ω).c1 = vdot (rot_matrix ω).c2 (rot_matrix ω).c2
    ∧ det3 (rot_matrix ω) = vdot (rot_matrix ω).c1 (rot_matrix ω).c1
    ∧ 0 < det3 (rot_matrix ω) :=
  rot_matrix_facts ω hω

/-- Witness for the amended C5 statement at `ω = (1,1,0)`. -/
theorem rot_matrix_structure_witness :
    ((⟨1, 1, 0⟩ : Vec3) ≠ 0) ∧
    ((rot_matrix ⟨1, 1, 0⟩).c3 = (vnorm ⟨1, 1, 0⟩)⁻¹ • (⟨1, 1, 0⟩ : Vec3)
     ∧ vdot (rot_matrix ⟨1, 1, 0⟩).c1 (rot_matrix ⟨1, 1, 0⟩).c2 = 0
     ∧ vdot (rot_matrix ⟨1, 1, 0⟩).c1 (rot_matrix ⟨1, 1, 0⟩).c3 = 0
     ∧ vdot (rot_matrix ⟨1, 1, 0⟩).c2 (rot_matrix ⟨1, 1, 0⟩).c3 = 0
     ∧ vdot (rot_matrix ⟨1, 1, 0⟩).c3 (rot_matrix ⟨1, 1, 0⟩).c3 = 1
     ∧ vdot (rot_matrix ⟨1, 1, 0⟩).c1 (rot_matrix ⟨1, 1, 0⟩).c1 =
         vdot (rot_matrix ⟨1, 1, 0⟩).c2 (rot_matrix ⟨1, 1, 0⟩).c2
     ∧ det3 (rot_matrix ⟨1, 1, 0⟩) =
         vdot (rot_matrix ⟨1, 1, 0⟩).c1 (rot_matrix ⟨1, 1, 0⟩).c1
     ∧ 0 < det3 (rot_matrix ⟨1, 1, 0⟩)) :=
  ⟨fun h => one_ne_zero (congrArg Vec3.x h),
   rot_matrix_structure ⟨1, 1, 0⟩ (fun h => one_ne_zero (congrArg Vec3.x h))⟩
